import Mathlib

/-!
Shallow embedding of the flash-engine 2D physics core
(src/native/physics.cpp, src/native/broadphase.cpp) over exact rationals.

Numeric model: the C code computes in 32-bit floats; we model every scalar
as `ℚ` with the source's decimal literals taken exactly.  `std::sqrt` is
modelled by `Rat.sqrt` (exact on perfect rational squares, which is the
fragment the theorems below use); `std::cos`/`std::sin` are modelled by
truncated Taylor polynomials `cosQ`/`sinQ`, exact at angle 0, and theorems
that need the rotation to be an isometry carry the explicit hypothesis
`cosQ θ ^ 2 + sinQ θ ^ 2 = 1`.
-/

namespace FlashEngine

/-- Model of `std::sqrt` on the rational embedding of floats. -/
def sqrtQ (q : ℚ) : ℚ := Rat.sqrt q

/-- Model of `std::cos` (truncated Taylor polynomial, exact at 0). -/
def cosQ (t : ℚ) : ℚ := 1 - t ^ 2 / 2 + t ^ 4 / 24 - t ^ 6 / 720

/-- Model of `std::sin` (truncated Taylor polynomial, exact at 0). -/
def sinQ (t : ℚ) : ℚ := t - t ^ 3 / 6 + t ^ 5 / 120

/-- `struct Vec2` from physics.cpp. -/
structure Vec2 where
  x : ℚ
  y : ℚ
deriving DecidableEq

/-- `Vec2::operator+`. -/
def Vec2.add (a b : Vec2) : Vec2 := ⟨a.x + b.x, a.y + b.y⟩

/-- `Vec2::operator-`. -/
def Vec2.sub (a b : Vec2) : Vec2 := ⟨a.x - b.x, a.y - b.y⟩

/-- `Vec2::operator*(float)`. -/
def Vec2.smul (a : Vec2) (s : ℚ) : Vec2 := ⟨a.x * s, a.y * s⟩

/-- `Vec2::dot`. -/
def Vec2.dot (a b : Vec2) : ℚ := a.x * b.x + a.y * b.y

/-- `Vec2::cross` (2D scalar cross product). -/
def Vec2.crossV (a b : Vec2) : ℚ := a.x * b.y - a.y * b.x

/-- `Vec2::lengthSq`. -/
def Vec2.lengthSq (a : Vec2) : ℚ := a.x * a.x + a.y * a.y

/-- `cross(Vec2 v, float s)` from physics.cpp. -/
def crossVS (v : Vec2) (s : ℚ) : Vec2 := ⟨s * v.y, -s * v.x⟩

/-- `cross(float s, Vec2 v)` from physics.cpp. -/
def crossSV (s : ℚ) (v : Vec2) : Vec2 := ⟨-s * v.y, s * v.x⟩

/-- `rotate(Vec2 v, float angle)` from physics.cpp. -/
def rotateQ (v : Vec2) (angle : ℚ) : Vec2 :=
  let c := cosQ angle
  let s := sinQ angle
  ⟨v.x * c - v.y * s, v.x * s + v.y * c⟩

/-- `enum BodyType`: `STATIC = 0`. -/
def STATIC : Nat := 0

/-- `enum BodyType`: `KINEMATIC = 1`. -/
def KINEMATIC : Nat := 1

/-- `enum BodyType`: `DYNAMIC = 2`. -/
def DYNAMIC : Nat := 2

/-- `enum ShapeType`: `SHAPE_CIRCLE = 0`. -/
def SHAPE_CIRCLE : Nat := 0

/-- `enum ShapeType`: `SHAPE_BOX = 1`. -/
def SHAPE_BOX : Nat := 1

/-- `struct NativeBody` from physics.h.  The FFI-layout-only fields that no
embedded operation reads (`isSensor`, `isBullet`, `proxyId`, `islandId`) are
omitted. -/
structure NativeBody where
  id : Nat
  type : Nat
  shapeType : Nat
  x : ℚ
  y : ℚ
  rotation : ℚ
  vx : ℚ
  vy : ℚ
  angularVelocity : ℚ
  forceX : ℚ
  forceY : ℚ
  torque : ℚ
  mass : ℚ
  inverseMass : ℚ
  inertia : ℚ
  inverseInertia : ℚ
  restitution : ℚ
  friction : ℚ
  width : ℚ
  height : ℚ
  radius : ℚ
  collision_count : Nat
  sleepTime : ℚ
  categoryBits : Nat
  maskBits : Nat
  isAwake : Bool
deriving DecidableEq

/-- Zero-initialised body, used as the out-of-range default of list reads
(the C code never actually reads out of range in the modelled paths). -/
def defaultBody : NativeBody :=
  { id := 0, type := 0, shapeType := 0, x := 0, y := 0, rotation := 0
    vx := 0, vy := 0, angularVelocity := 0, forceX := 0, forceY := 0
    torque := 0, mass := 0, inverseMass := 0, inertia := 0, inverseInertia := 0
    restitution := 0, friction := 0, width := 0, height := 0, radius := 0
    collision_count := 0, sleepTime := 0, categoryBits := 0, maskBits := 0
    isAwake := false }

/-- `struct CollisionManifold` from physics.cpp; `contactCount` is the length
of the `contacts` list (0–2). -/
structure CollisionManifold where
  normal : Vec2
  penetration : ℚ
  contacts : List Vec2
  collided : Bool
deriving DecidableEq

/-- The `{{0,0}, 0, {{0,0}}, 0, false}` no-collision result. -/
def noCollision : CollisionManifold := ⟨⟨0, 0⟩, 0, [], false⟩

/-- `detectCircleCircle` from physics.cpp. -/
def detectCircleCircle (a b : NativeBody) : CollisionManifold :=
  let posA : Vec2 := ⟨a.x, a.y⟩
  let posB : Vec2 := ⟨b.x, b.y⟩
  let d := posB.sub posA
  let distSq := d.lengthSq
  let radiusSum := a.radius + b.radius
  if radiusSum * radiusSum ≤ distSq then noCollision
  else
    let dist := sqrtQ distSq
    if dist = 0 then
      { normal := ⟨0, 1⟩, penetration := a.radius, contacts := [posA], collided := true }
    else
      let normal := d.smul (1 / dist)
      { normal := normal
        penetration := radiusSum - dist
        contacts := [posB.sub (normal.smul b.radius)]
        collided := true }

/-- The four rotated corners of a box body (the `v[4]` arrays in
`detectBoxBox`). -/
def boxVertices (b : NativeBody) : List Vec2 :=
  let hw := b.width / 2
  let hh := b.height / 2
  let pos : Vec2 := ⟨b.x, b.y⟩
  [pos.add (rotateQ ⟨-hw, -hh⟩ b.rotation),
   pos.add (rotateQ ⟨hw, -hh⟩ b.rotation),
   pos.add (rotateQ ⟨hw, hh⟩ b.rotation),
   pos.add (rotateQ ⟨-hw, hh⟩ b.rotation)]

/-- The `project` lambda in `detectBoxBox`: min and max of the vertex
projections onto an axis. -/
def projectBody (b : NativeBody) (axis : Vec2) : ℚ × ℚ :=
  match (boxVertices b).map (fun v => axis.dot v) with
  | [] => (0, 0)
  | p :: ps => (ps.foldl min p, ps.foldl max p)

/-- The separating-axis loop of `detectBoxBox`: state is
(minOverlap, bestAxis, refIsA); `none` means an axis separated the boxes
(early exit). -/
def satScan (a b : NativeBody) : List (Vec2 × Bool) → ℚ × Vec2 × Bool → Option (ℚ × Vec2 × Bool)
  | [], st => some st
  | (axis, isA) :: rest, (minOverlap, bestAxis, refIsA) =>
    let pa := projectBody a axis
    let pb := projectBody b axis
    let overlap := min pa.2 pb.2 - max pa.1 pb.1
    if overlap ≤ 0 then none
    else if overlap < minOverlap then satScan a b rest (overlap, axis, isA)
    else satScan a b rest (minOverlap, bestAxis, refIsA)

/-- `detectBoxBox` from physics.cpp. -/
def detectBoxBox (a b : NativeBody) : CollisionManifold :=
  let axes : List (Vec2 × Bool) :=
    [(rotateQ ⟨1, 0⟩ a.rotation, true), (rotateQ ⟨0, 1⟩ a.rotation, true),
     (rotateQ ⟨1, 0⟩ b.rotation, false), (rotateQ ⟨0, 1⟩ b.rotation, false)]
  match satScan a b axes (10000000000, ⟨0, 0⟩, true) with
  | none => noCollision
  | some (minOverlap, bestAxis0, refIsA) =>
    let d : Vec2 := ⟨b.x - a.x, b.y - a.y⟩
    let bestAxis := if bestAxis0.dot d < 0 then bestAxis0.smul (-1) else bestAxis0
    let ref := if refIsA then a else b
    let inc := if refIsA then b else a
    let vInc := boxVertices inc
    let maxA := (projectBody ref bestAxis).2
    let contacts0 :=
      ((vInc.filter (fun v => bestAxis.dot v ≤ maxA + 1 / 100)).take 2).map
        (fun v => v.add (bestAxis.smul (minOverlap / 2)))
    let contacts := if contacts0.isEmpty then [⟨inc.x, inc.y⟩] else contacts0
    { normal := bestAxis, penetration := minOverlap, contacts := contacts, collided := true }

/-- `detectCircleBox` from physics.cpp (first argument is the circle,
second the box). -/
def detectCircleBox (circle box : NativeBody) : CollisionManifold :=
  let pc : Vec2 := ⟨circle.x, circle.y⟩
  let pb : Vec2 := ⟨box.x, box.y⟩
  let d := pc.sub pb
  let localD := rotateQ d (-box.rotation)
  let hw := box.width / 2
  let hh := box.height / 2
  let closest : Vec2 := ⟨max (-hw) (min hw localD.x), max (-hh) (min hh localD.y)⟩
  let localNormal := localD.sub closest
  let distSq := localNormal.lengthSq
  let r := circle.radius
  if r * r < distSq ∧ (hw < |localD.x| ∨ hh < |localD.y|) then noCollision
  else
    let dist0 := sqrtQ distSq
    let nd : Vec2 × ℚ :=
      if 1 / 10000 < dist0 then ((rotateQ localNormal box.rotation).smul (1 / dist0), dist0)
      else
        let dx := hw - |localD.x|
        let dy := hh - |localD.y|
        if dx < dy then (rotateQ ⟨if 0 < localD.x then 1 else -1, 0⟩ box.rotation, -dx)
        else (rotateQ ⟨0, if 0 < localD.y then 1 else -1⟩ box.rotation, -dy)
    { normal := nd.1
      penetration := r - nd.2
      contacts := [pb.add (rotateQ closest box.rotation)]
      collided := true }

/-- `struct Softness` from physics.h. -/
structure Softness where
  biasRate : ℚ
  massScale : ℚ
  impulseScale : ℚ
deriving DecidableEq

/-- The `PI` macro of physics.cpp, exactly. -/
def PIQ : ℚ := 3.14159265359

/-- `makeSoftness` from physics.cpp. -/
def makeSoftness (hertz dampingRat h : ℚ) : Softness :=
  if hertz = 0 then ⟨0, 0, 0⟩
  else
    let omega := 2 * PIQ * hertz
    let a1 := 2 * dampingRat + h * omega
    let a2 := h * omega * a1
    let a3 := 1 / (1 + a2)
    ⟨omega / a1, a2 * a3, a3⟩

/-- `ContactConstraintPoint` from physics.h. -/
structure ContactConstraintPoint where
  anchorAx : ℚ
  anchorAy : ℚ
  anchorBx : ℚ
  anchorBy : ℚ
  baseSeparation : ℚ
  normalImpulse : ℚ
  tangentImpulse : ℚ
  normalMass : ℚ
  tangentMass : ℚ
deriving DecidableEq

/-- `ContactConstraint` from physics.h; `pointCount` is the length of the
`points` list (1–2); the unused `rollingResistance` field is omitted. -/
structure ContactConstraint where
  bodyA : Nat
  bodyB : Nat
  points : List ContactConstraintPoint
  normalX : ℚ
  normalY : ℚ
  friction : ℚ
  restitution : ℚ
  softness : Softness
deriving DecidableEq

def defaultConstraint : ContactConstraint :=
  { bodyA := 0, bodyB := 0, points := [], normalX := 0, normalY := 0
    friction := 0, restitution := 0, softness := ⟨0, 0, 0⟩ }

/-- `struct CachedImpulse` from physics.cpp. -/
structure CachedImpulse where
  normalImpulse : ℚ
  tangentImpulse : ℚ
deriving DecidableEq

/-- The `ImpulseCache` (`std::map<uint64_t, CachedImpulse>`), modelled as an
association list with unique keys. -/
def lookupCache : List (Nat × CachedImpulse) → Nat → Option CachedImpulse
  | [], _ => none
  | (k, v) :: rest, key => if k = key then some v else lookupCache rest key

/-- `(*cache)[key] = value` on the association-list model of `std::map`. -/
def storeCache : List (Nat × CachedImpulse) → Nat → CachedImpulse → List (Nat × CachedImpulse)
  | [], key, v => [(key, v)]
  | (k, w) :: rest, key, v =>
    if k = key then (key, v) :: rest else (k, w) :: storeCache rest key v

/-- `SoftBodyPoint` (declared in physics.h's soft-body section). -/
structure SoftBodyPoint where
  x : ℚ
  y : ℚ
  oldX : ℚ
  oldY : ℚ
  vx : ℚ
  vy : ℚ
  ax : ℚ
  ay : ℚ
  mass : ℚ
  invMass : ℚ
deriving DecidableEq

def defaultSBPoint : SoftBodyPoint :=
  { x := 0, y := 0, oldX := 0, oldY := 0, vx := 0, vy := 0, ax := 0, ay := 0
    mass := 0, invMass := 0 }

/-- `SoftBodyConstraint`. -/
structure SoftBodyConstraint where
  p1 : Nat
  p2 : Nat
  restLength : ℚ
  stiffness : ℚ
deriving DecidableEq

/-- `NativeSoftBody`; `pointCount`/`constraintCount` are list lengths. -/
structure NativeSoftBody where
  id : Nat
  points : List SoftBodyPoint
  constraints : List SoftBodyConstraint
  pressure : ℚ
  targetArea : ℚ
  friction : ℚ
  restitution : ℚ
deriving DecidableEq

/-- `struct AABB` layout (declared in broadphase.h, used by broadphase.cpp). -/
structure AABB where
  minX : ℚ
  minY : ℚ
  maxX : ℚ
  maxY : ℚ
deriving DecidableEq

/-- Modelled from the spec: `AABB::fatten` is declared in broadphase.h, which
is not part of this repository snapshot; the spec says bounds are "fattened by
a small margin", and `calculate_body_aabb` calls `aabb.fatten(2.0f)`, so the
model grows the box by the margin on every side. -/
def AABB.fatten (a : AABB) (m : ℚ) : AABB :=
  ⟨a.minX - m, a.minY - m, a.maxX + m, a.maxY + m⟩

/-- `calculate_body_aabb` from broadphase.cpp. -/
def calculate_body_aabb (body : NativeBody) : AABB :=
  let aabb :=
    if body.shapeType = SHAPE_CIRCLE then
      AABB.mk (body.x - body.radius) (body.y - body.radius)
        (body.x + body.radius) (body.y + body.radius)
    else
      let hw := body.width / 2
      let hh := body.height / 2
      let c := cosQ body.rotation
      let s := sinQ body.rotation
      let corners : List (ℚ × ℚ) :=
        [(-hw * c - (-hh) * s, -hw * s + (-hh) * c),
         (hw * c - (-hh) * s, hw * s + (-hh) * c),
         (hw * c - hh * s, hw * s + hh * c),
         (-hw * c - hh * s, -hw * s + hh * c)]
      match corners with
      | [] => AABB.mk body.x body.y body.x body.y
      | c0 :: cs =>
        cs.foldl
          (fun a cr =>
            AABB.mk (min a.minX (body.x + cr.1)) (min a.minY (body.y + cr.2))
              (max a.maxX (body.x + cr.1)) (max a.maxY (body.y + cr.2)))
          (AABB.mk (body.x + c0.1) (body.y + c0.2) (body.x + c0.1) (body.y + c0.2))
  aabb.fatten 2

/-- Two AABBs overlap (the standard interval test used by both broadphase
implementations). -/
def aabbOverlap (a b : AABB) : Bool :=
  decide (a.minX ≤ b.maxX) && decide (b.minX ≤ a.maxX) &&
  decide (a.minY ≤ b.maxY) && decide (b.minY ≤ a.maxY)

/-- `PhysicsWorld` from physics.h, restricted to the state the embedded
operations touch.  `warmStartCache` is the association-list model of the
`std::map` impulse cache; the joint arrays are omitted (the joint subsystem
lives outside this repository snapshot and is out of the spec's scope; a
world is modelled with no joints, for which the joint-solver hooks called by
`step_physics` are no-ops). -/
structure World where
  bodies : List NativeBody
  maxBodies : Nat
  gravityX : ℚ
  gravityY : ℚ
  velocityIterations : Nat
  positionIterations : Nat
  enableWarmStarting : Bool
  contactHertz : ℚ
  contactDampingRat : ℚ
  restitutionThreshold : ℚ
  maxLinearVelocity : ℚ
  constraints : List ContactConstraint
  maxConstraints : Nat
  softBodies : List NativeSoftBody
  warmStartCache : List (Nat × CachedImpulse)
deriving DecidableEq

/-- Functional update of the `i`-th list element (the model of in-place
mutation of `world->bodies[i]` etc.). -/
def modifyAt : List α → Nat → (α → α) → List α
  | [], _, _ => []
  | a :: l, 0, f => f a :: l
  | a :: l, n + 1, f => a :: modifyAt l n f

/-- `world->bodies[i]` (reads in the modelled paths are always in range). -/
def getBody (bodies : List NativeBody) (i : Nat) : NativeBody :=
  bodies.getD i defaultBody

/- ---------------------------------------------------------------------
Soft-body stepper (`step_soft_body` in physics.cpp)
--------------------------------------------------------------------- -/

/-- Loop 1 of `step_soft_body`: gravity + Verlet integration of one point. -/
def verletPoint (gx gy dt : ℚ) (p : SoftBodyPoint) : SoftBodyPoint :=
  let ax := gx
  let ay := gy
  let vx := (p.x - p.oldX) * (99 / 100)
  let vy := (p.y - p.oldY) * (99 / 100)
  { p with
    ax := ax
    ay := ay
    oldX := p.x
    oldY := p.y
    x := p.x + vx + ax * dt * dt
    y := p.y + vy + ay * dt * dt }

/-- One distance constraint of loop 2 of `step_soft_body`. -/
def relaxConstraint (pts : List SoftBodyPoint) (c : SoftBodyConstraint) : List SoftBodyPoint :=
  let p1 := pts.getD c.p1 defaultSBPoint
  let p2 := pts.getD c.p2 defaultSBPoint
  let dx := p2.x - p1.x
  let dy := p2.y - p1.y
  let dist := sqrtQ (dx * dx + dy * dy)
  if dist < 1 / 10000 then pts
  else
    let diff := (dist - c.restLength) / dist
    let offX := dx * (1 / 2) * diff * c.stiffness
    let offY := dy * (1 / 2) * diff * c.stiffness
    modifyAt
      (modifyAt pts c.p1 (fun p => { p with x := p.x + offX, y := p.y + offY }))
      c.p2 (fun p => { p with x := p.x - offX, y := p.y - offY })

/-- The shoelace sum of loop 3 of `step_soft_body` (before `abs`·0.5). -/
def shoelace (pts : List SoftBodyPoint) : ℚ :=
  (List.range pts.length).foldl
    (fun acc pIdx =>
      let p := pts.getD pIdx defaultSBPoint
      let q := pts.getD ((pIdx + 1) % pts.length) defaultSBPoint
      acc + (p.x * q.y - q.x * p.y))
    0

/-- Loop 3 of `step_soft_body` (pressure): later points see earlier pushes,
as with the in-place C loop. -/
def pressurePass (targetArea pressure : ℚ) (pts0 : List SoftBodyPoint) : List SoftBodyPoint :=
  let area := |shoelace pts0| * (1 / 2)
  let areaDiff := targetArea - area
  (List.range pts0.length).foldl
    (fun pts pIdx =>
      let n := pts.length
      let prev := pts.getD ((pIdx + n - 1) % n) defaultSBPoint
      let next := pts.getD ((pIdx + 1) % n) defaultSBPoint
      let nx := next.y - prev.y
      let ny := -(next.x - prev.x)
      let nLen := sqrtQ (nx * nx + ny * ny)
      if 1 / 10000 < nLen then
        let force := areaDiff * pressure * (1 / 100000)
        modifyAt pts pIdx
          (fun p => { p with x := p.x + nx / nLen * force, y := p.y + ny / nLen * force })
      else pts)
    pts0

/-- One of the 10 relaxation iterations (constraints, then pressure). -/
def relaxIteration (cs : List SoftBodyConstraint) (targetArea pressure : ℚ)
    (pts : List SoftBodyPoint) : List SoftBodyPoint :=
  pressurePass targetArea pressure (cs.foldl relaxConstraint pts)

/-- Loop 4 of `step_soft_body`, circle case (the `fprintf` debug traces are
pure I/O and have no state effect). -/
def collidePointCircle (b : NativeBody) (p : SoftBodyPoint) : SoftBodyPoint :=
  let dx := p.x - b.x
  let dy := p.y - b.y
  let distSq := dx * dx + dy * dy
  let r := b.radius + 2
  if distSq < r * r then
    let dist := sqrtQ distSq
    let pen := r - dist
    if 1 / 10000 < dist then
      let x1 := p.x + dx / dist * pen
      let y1 := p.y + dy / dist * pen
      { p with
        x := x1
        y := y1
        oldX := p.oldX + (x1 - p.oldX) * (1 / 10)
        oldY := p.oldY + (y1 - p.oldY) * (1 / 10) }
    else p
  else p

/-- Loop 4 of `step_soft_body`, box case. -/
def collidePointBox (b : NativeBody) (p : SoftBodyPoint) : SoftBodyPoint :=
  let c := cosQ (-b.rotation)
  let s := sinQ (-b.rotation)
  let dx := p.x - b.x
  let dy := p.y - b.y
  let localX := dx * c - dy * s
  let localY := dx * s + dy * c
  let hw := b.width / 2
  let hh := b.height / 2
  let pr : ℚ := 2
  if -hw - pr < localX ∧ localX < hw + pr ∧ -hh - pr < localY ∧ localY < hh + pr then
    let dLeft := localX - (-hw - pr)
    let dRight := hw + pr - localX
    let dBottom := localY - (-hh - pr)
    let dTop := hh + pr - localY
    let minPen := min (min dLeft dRight) (min dBottom dTop)
    let nL : ℚ × ℚ :=
      if minPen = dLeft then (-1, 0)
      else if minPen = dRight then (1, 0)
      else if minPen = dBottom then (0, -1)
      else if minPen = dTop then (0, 1)
      else (0, 0)
    let cr := cosQ b.rotation
    let sr := sinQ b.rotation
    let wNx := nL.1 * cr - nL.2 * sr
    let wNy := nL.1 * sr + nL.2 * cr
    let x1 := p.x + wNx * minPen
    let y1 := p.y + wNy * minPen
    { p with
      x := x1
      y := y1
      oldX := x1 - (x1 - p.oldX) * (1 / 2)
      oldY := y1 - (y1 - p.oldY) * (1 / 2) }
  else p

/-- Loop 4 dispatch on the rigid body's shape. -/
def collidePoint (b : NativeBody) (p : SoftBodyPoint) : SoftBodyPoint :=
  if b.shapeType = 0 then collidePointCircle b p
  else if b.shapeType = 1 then collidePointBox b p
  else p

/-- Loop 5 of `step_soft_body`: clamp to the ±1000 world box. -/
def clampBounds (p : SoftBodyPoint) : SoftBodyPoint :=
  { p with x := min 1000 (max (-1000) p.x), y := min 1000 (max (-1000) p.y) }

/-- `step_soft_body` for one soft body. -/
def step_soft_body_one (gx gy : ℚ) (bodies : List NativeBody) (dt : ℚ)
    (sb : NativeSoftBody) : NativeSoftBody :=
  let pts1 := sb.points.map (verletPoint gx gy dt)
  let pts2 := (relaxIteration sb.constraints sb.targetArea sb.pressure)^[10] pts1
  let pts3 := bodies.foldl (fun ps b => ps.map (collidePoint b)) pts2
  let pts4 := pts3.map clampBounds
  { sb with points := pts4 }

/-- `step_soft_body` from physics.cpp. -/
def step_soft_body (w : World) (dt : ℚ) : World :=
  { w with softBodies :=
      w.softBodies.map (step_soft_body_one w.gravityX w.gravityY w.bodies dt) }

/- ---------------------------------------------------------------------
Rigid-body step (`step_physics` in physics.cpp)
--------------------------------------------------------------------- -/

/-- Modelled from the spec: `query_tree_pairs` and the dynamic AABB tree live
outside this repository snapshot; the spec's broadphase contract is "produce
the set of unordered id pairs whose volumes overlap, with no duplicates", in
canonical (low, high) order, capped at the caller's `maxPairs`.  Bounds are
the fattened `calculate_body_aabb` boxes. -/
def queryTreePairsModel (bodies : List NativeBody) (maxPairs : Nat) : List (Nat × Nat) :=
  (((List.range bodies.length).flatMap fun i =>
      ((List.range bodies.length).filter fun j =>
          decide (i < j) &&
          aabbOverlap (calculate_body_aabb (getBody bodies i))
            (calculate_body_aabb (getBody bodies j))).map
        fun j => (i, j)).take maxPairs)

/-- The narrow-phase dispatch of `step_physics` (used verbatim both when
building constraints and inside every position-correction iteration),
including the sign flip applied to the circle–box case. -/
def pairManifold (a b : NativeBody) : CollisionManifold :=
  let m :=
    if a.shapeType = SHAPE_CIRCLE ∧ b.shapeType = SHAPE_CIRCLE then detectCircleCircle a b
    else if a.shapeType = SHAPE_BOX ∧ b.shapeType = SHAPE_BOX then detectBoxBox a b
    else if a.shapeType = SHAPE_CIRCLE then detectCircleBox a b
    else detectCircleBox b a
  if m.collided ∧ a.shapeType = SHAPE_CIRCLE ∧ b.shapeType = SHAPE_BOX then
    { m with normal := m.normal.smul (-1) }
  else m

/-- One `ContactConstraintPoint` built from a manifold contact
(constraint-building loop of `step_physics`). -/
def mkConstraintPoint (a b : NativeBody) (m : CollisionManifold) (soft : Softness)
    (contact : Vec2) : ContactConstraintPoint :=
  let anchorA := contact.sub ⟨a.x, a.y⟩
  let anchorB := contact.sub ⟨b.x, b.y⟩
  let normal := m.normal
  let raN := anchorA.crossV normal
  let rbN := anchorB.crossV normal
  let kN := a.inverseMass + b.inverseMass + raN * raN * a.inverseInertia +
    rbN * rbN * b.inverseInertia + soft.massScale
  let tangent : Vec2 := ⟨-normal.y, normal.x⟩
  let raT := anchorA.crossV tangent
  let rbT := anchorB.crossV tangent
  let kT := a.inverseMass + b.inverseMass + raT * raT * a.inverseInertia +
    rbT * rbT * b.inverseInertia
  { anchorAx := anchorA.x, anchorAy := anchorA.y
    anchorBx := anchorB.x, anchorBy := anchorB.y
    baseSeparation := -m.penetration
    normalImpulse := 0, tangentImpulse := 0
    normalMass := if 0 < kN then 1 / kN else 0
    tangentMass := if 0 < kT then 1 / kT else 0 }

/-- The whole `ContactConstraint` built for one colliding pair. -/
def mkConstraint (i j : Nat) (a b : NativeBody) (m : CollisionManifold)
    (soft : Softness) (restitutionThreshold : ℚ) : ContactConstraint :=
  let relV := ((Vec2.mk b.vx b.vy).sub ⟨a.vx, a.vy⟩).dot m.normal
  { bodyA := i, bodyB := j
    normalX := m.normal.x, normalY := m.normal.y
    friction := sqrtQ (a.friction * b.friction)
    restitution :=
      if relV < -restitutionThreshold then max a.restitution b.restitution else 0
    points := m.contacts.map (mkConstraintPoint a b m soft)
    softness := soft }

/-- The constraint-building loop of `step_physics` (terminates early when the
constraint array is full, the `&& activeConstraints < maxConstraints` loop
condition). -/
def buildConstraints (soft : Softness) (restitutionThreshold : ℚ) (maxConstraints : Nat) :
    List (Nat × Nat) → List NativeBody × List ContactConstraint →
    List NativeBody × List ContactConstraint
  | [], st => st
  | (i, j) :: rest, (bodies, cons) =>
    if maxConstraints ≤ cons.length then (bodies, cons)
    else
      let a := getBody bodies i
      let b := getBody bodies j
      if a.type = STATIC ∧ b.type = STATIC then
        buildConstraints soft restitutionThreshold maxConstraints rest (bodies, cons)
      else if ¬(a.maskBits &&& b.categoryBits ≠ 0 ∧ b.maskBits &&& a.categoryBits ≠ 0) then
        buildConstraints soft restitutionThreshold maxConstraints rest (bodies, cons)
      else
        let m := pairManifold a b
        if m.collided then
          let c := mkConstraint i j a b m soft restitutionThreshold
          let bodies1 :=
            modifyAt (modifyAt bodies i fun x => { x with collision_count := x.collision_count + 1 })
              j fun x => { x with collision_count := x.collision_count + 1 }
          buildConstraints soft restitutionThreshold maxConstraints rest (bodies1, cons ++ [c])
        else
          buildConstraints soft restitutionThreshold maxConstraints rest (bodies, cons)

/-- Phase 2 of `step_physics`: sleep bookkeeping, then semi-implicit force
integration with the 0.999 damping, for one body. -/
def integrateVelocity (gx gy dt : ℚ) (b : NativeBody) : NativeBody :=
  if b.type = STATIC then b
  else
    let quiet := b.vx * b.vx + b.vy * b.vy < 1 / 5 ∧ |b.angularVelocity| < 1 / 5 ∧
      b.forceX = 0 ∧ b.forceY = 0 ∧ b.torque = 0
    let sleepTime1 := if quiet then b.sleepTime + dt else 0
    let isAwake1 := if quiet then b.isAwake else true
    if 1 < sleepTime1 then
      { b with sleepTime := sleepTime1, isAwake := false, vx := 0, vy := 0, angularVelocity := 0 }
    else
      { b with
        sleepTime := sleepTime1
        isAwake := isAwake1
        vx := (b.vx + (gx + b.forceX * b.inverseMass) * dt) * (999 / 1000)
        vy := (b.vy + (gy + b.forceY * b.inverseMass) * dt) * (999 / 1000)
        angularVelocity := (b.angularVelocity + b.torque * b.inverseInertia * dt) * (999 / 1000)
        forceX := 0
        forceY := 0
        torque := 0 }

/-- The warm-start cache key `(minId << 32) | (maxId << 4) | j`, exact for
`maxId < 2^28` and `j < 16`. -/
def warmKey (aId bId j : Nat) : Nat :=
  min aId bId * 2 ^ 32 + max aId bId * 16 + j

/-- Warm start: apply an impulse `P` at anchors `ra`/`rb` to the two bodies
of a constraint (negatively to A, positively to B; static bodies are
skipped). -/
def warmStartApply (bs : List NativeBody) (cA cB : Nat) (ra rb P : Vec2) :
    List NativeBody :=
  let bs1 := modifyAt bs cA fun a =>
    if a.type ≠ STATIC then
      { a with
        vx := a.vx - P.x * a.inverseMass
        vy := a.vy - P.y * a.inverseMass
        angularVelocity := a.angularVelocity - ra.crossV P * a.inverseInertia }
    else a
  modifyAt bs1 cB fun b =>
    if b.type ≠ STATIC then
      { b with
        vx := b.vx + P.x * b.inverseMass
        vy := b.vy + P.y * b.inverseMass
        angularVelocity := b.angularVelocity + rb.crossV P * b.inverseInertia }
    else b

/-- The inner point loop of the warm-start phase: look each point's key up in
the cache, seed its accumulated impulses and immediately re-apply them to the
bodies (at full magnitude), or zero the impulses on a cache miss. -/
def warmPoints (cache : List (Nat × CachedImpulse)) (cA cB : Nat) (nrm tng : Vec2) :
    Nat → List ContactConstraintPoint → List NativeBody →
    List NativeBody × List ContactConstraintPoint
  | _, [], bs => (bs, [])
  | j, cp :: rest, bs =>
    match lookupCache cache (warmKey cA cB j) with
    | some imp =>
      let cp1 := { cp with
                   normalImpulse := imp.normalImpulse
                   tangentImpulse := imp.tangentImpulse }
      let P := (nrm.smul imp.normalImpulse).add (tng.smul imp.tangentImpulse)
      let bs1 := warmStartApply bs cA cB ⟨cp.anchorAx, cp.anchorAy⟩ ⟨cp.anchorBx, cp.anchorBy⟩ P
      let r := warmPoints cache cA cB nrm tng (j + 1) rest bs1
      (r.1, cp1 :: r.2)
    | none =>
      let cp1 := { cp with normalImpulse := 0, tangentImpulse := 0 }
      let r := warmPoints cache cA cB nrm tng (j + 1) rest bs
      (r.1, cp1 :: r.2)

/-- The warm-start phase over all constraints. -/
def warmStartPhase (enable : Bool) (cache : List (Nat × CachedImpulse))
    (st : List NativeBody × List ContactConstraint) :
    List NativeBody × List ContactConstraint :=
  if enable then
    (List.range st.2.length).foldl
      (fun (st : List NativeBody × List ContactConstraint) i =>
        let c := st.2.getD i defaultConstraint
        let nrm : Vec2 := ⟨c.normalX, c.normalY⟩
        let tng : Vec2 := ⟨-c.normalY, c.normalX⟩
        let r := warmPoints cache c.bodyA c.bodyB nrm tng 0 c.points st.1
        (r.1, modifyAt st.2 i fun c0 => { c0 with points := r.2 }))
      st
  else st

/-- Apply impulse `P` at anchors to bodies `cA`/`cB` inside a velocity
iteration (same shape as the warm-start application). -/
def applyImpulse (bs : List NativeBody) (cA cB : Nat) (ra rb P : Vec2) :
    List NativeBody :=
  warmStartApply bs cA cB ra rb P

/-- One contact point of one constraint inside a velocity iteration:
soft-constraint normal impulse (accumulated impulse clamped at 0), then
friction impulse clamped to the friction cone of the *new* normal impulse. -/
def solvePoint (c : ContactConstraint) (bs : List NativeBody)
    (cp : ContactConstraintPoint) : List NativeBody × ContactConstraintPoint :=
  let a := getBody bs c.bodyA
  let b := getBody bs c.bodyB
  let normal : Vec2 := ⟨c.normalX, c.normalY⟩
  let tangent : Vec2 := ⟨-c.normalY, c.normalX⟩
  let ra : Vec2 := ⟨cp.anchorAx, cp.anchorAy⟩
  let rb : Vec2 := ⟨cp.anchorBx, cp.anchorBy⟩
  let dv := ((Vec2.mk b.vx b.vy).add (crossSV b.angularVelocity rb)).sub
    ((Vec2.mk a.vx a.vy).add (crossSV a.angularVelocity ra))
  let vn := dv.dot normal
  let bias0 := c.softness.massScale * c.softness.biasRate * cp.baseSeparation
  let bias := if 0 < c.restitution then bias0 - c.restitution * vn else bias0
  let lambda0 := -cp.normalMass * (c.softness.massScale * vn + bias) -
    c.softness.impulseScale * cp.normalImpulse
  let oldImpulse := cp.normalImpulse
  let newImpulse := max (oldImpulse + lambda0) 0
  let lam := newImpulse - oldImpulse
  let bs1 := applyImpulse bs c.bodyA c.bodyB ra rb (normal.smul lam)
  let a1 := getBody bs1 c.bodyA
  let b1 := getBody bs1 c.bodyB
  let dv1 := ((Vec2.mk b1.vx b1.vy).add (crossSV b1.angularVelocity rb)).sub
    ((Vec2.mk a1.vx a1.vy).add (crossSV a1.angularVelocity ra))
  let lambdaT := -cp.tangentMass * dv1.dot tangent
  let maxF := c.friction * newImpulse
  let oldT := cp.tangentImpulse
  let newT := max (-maxF) (min (oldT + lambdaT) maxF)
  let lamT := newT - oldT
  let bs2 := applyImpulse bs1 c.bodyA c.bodyB ra rb (tangent.smul lamT)
  (bs2, { cp with normalImpulse := newImpulse, tangentImpulse := newT })

/-- The point loop of one constraint inside a velocity iteration. -/
def solvePoints (c : ContactConstraint) : List ContactConstraintPoint →
    List NativeBody → List NativeBody × List ContactConstraintPoint
  | [], bs => (bs, [])
  | cp :: rest, bs =>
    let r := solvePoint c bs cp
    let r2 := solvePoints c rest r.1
    (r2.1, r.2 :: r2.2)

/-- Mark a body awake with zero sleep timer (the "Simple Wake-up" in the
velocity iteration). -/
def wakeBody (b : NativeBody) : NativeBody :=
  { b with isAwake := true, sleepTime := 0 }

/-- One constraint inside a velocity iteration: skipped when both bodies are
asleep, else both are woken and the points are solved in order. -/
def solveConstraint (st : List NativeBody × List ContactConstraint) (i : Nat) :
    List NativeBody × List ContactConstraint :=
  let c := st.2.getD i defaultConstraint
  let a := getBody st.1 c.bodyA
  let b := getBody st.1 c.bodyB
  if ¬a.isAwake ∧ ¬b.isAwake then st
  else
    let bs0 := modifyAt (modifyAt st.1 c.bodyA wakeBody) c.bodyB wakeBody
    let r := solvePoints c c.points bs0
    (r.1, modifyAt st.2 i fun c0 => { c0 with points := r.2 })

/-- One full velocity iteration over all constraints (the joint hook
`solve_joint_velocity_constraints` is a no-op for a joint-free world). -/
def velocityIteration (st : List NativeBody × List ContactConstraint) :
    List NativeBody × List ContactConstraint :=
  (List.range st.2.length).foldl solveConstraint st

/-- The impulse-store loop after the velocity iterations. -/
def storeImpulses (enable : Bool) (cs : List ContactConstraint)
    (cache : List (Nat × CachedImpulse)) : List (Nat × CachedImpulse) :=
  if enable then
    cs.foldl
      (fun cache c =>
        (c.points.enum.foldl
          (fun cache pj =>
            storeCache cache (warmKey c.bodyA c.bodyB pj.1)
              ⟨pj.2.normalImpulse, pj.2.tangentImpulse⟩)
          cache))
      cache
  else cache

/-- Phase 4 of `step_physics`: position integration of one body. -/
def integratePosition (dt : ℚ) (b : NativeBody) : NativeBody :=
  if b.type = STATIC ∨ b.isAwake = false then b
  else
    { b with
      x := b.x + b.vx * dt
      y := b.y + b.vy * dt
      rotation := b.rotation + b.angularVelocity * dt }

/-- One contact of the position-correction inner loop; positions mutate
point-by-point as with the C references. -/
def positionContact (cA cB : Nat) (nrm : Vec2) (impulsePerPoint : ℚ)
    (bs : List NativeBody) (contact : Vec2) : List NativeBody :=
  let a := getBody bs cA
  let b := getBody bs cB
  let ra := contact.sub ⟨a.x, a.y⟩
  let rb := contact.sub ⟨b.x, b.y⟩
  let raN := ra.crossV nrm
  let rbN := rb.crossV nrm
  let k := a.inverseMass + b.inverseMass + raN * raN * a.inverseInertia +
    rbN * rbN * b.inverseInertia
  if k ≤ 1 / 1000000 then bs
  else
    let impulse := impulsePerPoint / k
    let P := nrm.smul impulse
    let bs1 := modifyAt bs cA fun a0 =>
      if a0.type ≠ STATIC then
        { a0 with
          x := a0.x - P.x * a0.inverseMass
          y := a0.y - P.y * a0.inverseMass
          rotation := a0.rotation - ra.crossV P * a0.inverseInertia }
      else a0
    modifyAt bs1 cB fun b0 =>
      if b0.type ≠ STATIC then
        { b0 with
          x := b0.x + P.x * b0.inverseMass
          y := b0.y + P.y * b0.inverseMass
          rotation := b0.rotation + rb.crossV P * b0.inverseInertia }
      else b0

/-- One constraint of one position-correction iteration: the narrow phase is
re-evaluated against current (corrected) poses via the same `pairManifold`
dispatch used during constraint building, including the circle–box flip. -/
def positionConstraint (bs : List NativeBody) (c : ContactConstraint) :
    List NativeBody :=
  let a := getBody bs c.bodyA
  let b := getBody bs c.bodyB
  if ¬a.isAwake ∧ ¬b.isAwake then bs
  else
    let m := pairManifold a b
    if m.collided then
      let corr := max (m.penetration - 1 / 100) 0 * (1 / 5)
      if corr ≤ 0 then bs
      else
        let impulsePerPoint := corr / (m.contacts.length : ℚ)
        m.contacts.foldl (positionContact c.bodyA c.bodyB m.normal impulsePerPoint) bs
    else bs

/-- One position-correction iteration (the joint hook
`solve_joint_position_constraints` is a no-op for a joint-free world). -/
def positionIteration (cs : List ContactConstraint) (bs : List NativeBody) :
    List NativeBody :=
  cs.foldl positionConstraint bs

/-- The rigid pipeline of `step_physics` up to and including the warm start:
broadphase update (collision counters reset; the tree is modelled by
`queryTreePairsModel`), constraint building, velocity integration, warm
start.  The joint hook `init_joint_velocity_constraints` is a no-op for a
joint-free world. -/
def solveStartState (w : World) (dt : ℚ) : List NativeBody × List ContactConstraint :=
  let bodiesR := w.bodies.map fun b => { b with collision_count := 0 }
  let pairs := queryTreePairsModel bodiesR (w.maxBodies * 8)
  let soft := makeSoftness w.contactHertz w.contactDampingRat dt
  let built := buildConstraints soft w.restitutionThreshold w.maxConstraints pairs (bodiesR, [])
  let bodies2 := built.1.map (integrateVelocity w.gravityX w.gravityY dt)
  warmStartPhase w.enableWarmStarting w.warmStartCache (bodies2, built.2)

/-- `step_physics` from physics.cpp.  Null-world handling lives at the API
layer; `0.2f` Baumgarte, `0.01f` slop and all other float literals are taken
exactly. -/
def step_physics (w : World) (dt : ℚ) : World :=
  if dt ≤ 0 then w
  else
    let w1 := step_soft_body w dt
    if w1.bodies.length = 0 then w1
    else
      let st := velocityIteration^[w1.velocityIterations] (solveStartState w1 dt)
      let cache1 := storeImpulses w1.enableWarmStarting st.2 w1.warmStartCache
      let bodies5 := st.1.map (integratePosition dt)
      let bodies6 := (positionIteration st.2)^[w1.positionIterations] bodies5
      { w1 with bodies := bodies6, constraints := st.2, warmStartCache := cache1 }

/- ---------------------------------------------------------------------
Boundary API (physics.cpp `extern "C"` operations).
A null `PhysicsWorld*` is modelled by `none`.
--------------------------------------------------------------------- -/

/-- `create_body` from physics.cpp; returns the updated world and the new id
(or the failure sentinel `-1` at capacity).  The broadphase proxy insertion
mutates only the modelled-away tree. -/
def create_body (w : World) (type shapeType : Nat) (x y wdt hgt rot : ℚ)
    (categoryBits maskBits : Nat) : World × Int :=
  if w.maxBodies ≤ w.bodies.length then (w, -1)
  else
    let id := w.bodies.length
    let radius := (if wdt < hgt then wdt else hgt) / 2
    let mass : ℚ := if type = STATIC then 0 else 1
    let inverseMass : ℚ := if type = STATIC then 0 else 1 / mass
    let inertia : ℚ :=
      if type = STATIC then 0
      else if shapeType = SHAPE_BOX then 1 / 12 * mass * (wdt * wdt + hgt * hgt)
      else 1 / 2 * mass * (radius * radius)
    let inverseInertia : ℚ := if type = STATIC then 0 else 1 / inertia
    let b : NativeBody :=
      { id := id, type := type, shapeType := shapeType, x := x, y := y
        rotation := rot, vx := 0, vy := 0, angularVelocity := 0
        forceX := 0, forceY := 0, torque := 0
        mass := mass, inverseMass := inverseMass
        inertia := inertia, inverseInertia := inverseInertia
        restitution := 1 / 5, friction := 2 / 5
        width := wdt, height := hgt, radius := radius
        collision_count := 0, sleepTime := 0
        categoryBits := categoryBits, maskBits := maskBits, isAwake := true }
    ({ w with bodies := w.bodies ++ [b] }, (id : Int))

def defaultSoftBody : NativeSoftBody :=
  { id := 0, points := [], constraints := [], pressure := 0, targetArea := 0
    friction := 0, restitution := 0 }

/-- `create_soft_body` from physics.cpp (the world's `maxSoftBodies` is the
constant 32 set by `create_physics_world`). -/
def create_soft_body (w : World) (pointCount : Nat) (xs ys : List ℚ)
    (pressure stiffness : ℚ) : World × Int :=
  if 32 ≤ w.softBodies.length then (w, -1)
  else
    let id := w.softBodies.length
    let gx := fun i => xs.getD i 0
    let gy := fun i => ys.getD i 0
    let points := (List.range pointCount).map fun i =>
      ({ x := gx i, y := gy i, oldX := gx i, oldY := gy i, vx := 0, vy := 0
         ax := 0, ay := 0, mass := 1, invMass := 1 } : SoftBodyPoint)
    let area := (List.range pointCount).foldl
      (fun acc i =>
        let nx := (i + 1) % pointCount
        acc + (gx i * gy nx - gx nx * gy i))
      0
    let perimeter := (List.range pointCount).map fun i =>
      let nx := (i + 1) % pointCount
      ({ p1 := i, p2 := nx
         restLength := sqrtQ ((gx i - gx nx) * (gx i - gx nx) + (gy i - gy nx) * (gy i - gy nx))
         stiffness := stiffness } : SoftBodyConstraint)
    let cross := (List.range (pointCount / 2)).map fun i =>
      let p2 := (i + pointCount / 2) % pointCount
      ({ p1 := i, p2 := p2
         restLength := sqrtQ ((gx i - gx p2) * (gx i - gx p2) + (gy i - gy p2) * (gy i - gy p2))
         stiffness := stiffness * (1 / 10) } : SoftBodyConstraint)
    let sb : NativeSoftBody :=
      { id := id, points := points, constraints := perimeter ++ cross
        pressure := pressure, targetArea := |area| * (1 / 2)
        friction := 2 / 5, restitution := 1 / 5 }
    ({ w with softBodies := w.softBodies ++ [sb] }, (id : Int))

/-- `set_soft_body_point` from physics.cpp. -/
def set_soft_body_point (w : World) (sbId pointIdx : Int) (x y : ℚ) : World :=
  if sbId < 0 ∨ (w.softBodies.length : Int) ≤ sbId then w
  else
    let si := sbId.toNat
    let sb := w.softBodies.getD si defaultSoftBody
    if pointIdx < 0 ∨ (sb.points.length : Int) ≤ pointIdx then w
    else
      { w with softBodies :=
          modifyAt w.softBodies si fun sb0 =>
            { sb0 with points :=
                modifyAt sb0.points pointIdx.toNat fun p =>
                  { p with x := x, y := y, oldX := x, oldY := y, vx := 0, vy := 0 } } }

/-- `apply_force` from physics.cpp (null world or invalid id: no effect). -/
def apply_force (w : Option World) (bodyId : Int) (fx fy : ℚ) : Option World :=
  match w with
  | none => none
  | some world =>
    if 0 ≤ bodyId ∧ bodyId < (world.bodies.length : Int) then
      let bodies1 := modifyAt world.bodies bodyId.toNat fun b =>
        { b with
          forceX := b.forceX + fx
          forceY := b.forceY + fy
          isAwake := true
          sleepTime := 0 }
      some { world with bodies := bodies1 }
    else some world

/-- `apply_torque` from physics.cpp. -/
def apply_torque (w : Option World) (bodyId : Int) (tq : ℚ) : Option World :=
  match w with
  | none => none
  | some world =>
    if 0 ≤ bodyId ∧ bodyId < (world.bodies.length : Int) then
      let bodies1 := modifyAt world.bodies bodyId.toNat fun b =>
        { b with
          torque := b.torque + tq
          isAwake := true
          sleepTime := 0 }
      some { world with bodies := bodies1 }
    else some world

/-- `set_body_velocity` from physics.cpp. -/
def set_body_velocity (w : Option World) (bodyId : Int) (vx vy : ℚ) : Option World :=
  match w with
  | none => none
  | some world =>
    if 0 ≤ bodyId ∧ bodyId < (world.bodies.length : Int) then
      let bodies1 := modifyAt world.bodies bodyId.toNat fun b =>
        { b with
          vx := vx
          vy := vy
          isAwake := true
          sleepTime := 0 }
      some { world with bodies := bodies1 }
    else some world

/-- `get_body_position` from physics.cpp: the output pointees (`*x`, `*y`,
passed in as `outX`/`outY`) are written only when the world is non-null and
the id is in range; otherwise they keep their previous values. -/
def get_body_position (w : Option World) (bodyId : Int) (outX outY : ℚ) : ℚ × ℚ :=
  match w with
  | none => (outX, outY)
  | some world =>
    if 0 ≤ bodyId ∧ bodyId < (world.bodies.length : Int) then
      let b := getBody world.bodies bodyId.toNat
      (b.x, b.y)
    else (outX, outY)

/- ---------------------------------------------------------------------
Spatial-hash broadphase (broadphase.cpp)
--------------------------------------------------------------------- -/

/-- `SpatialHashGrid` from broadphase.h as used by broadphase.cpp; a cell is
its list of inserted body ids, indexed by `cellY * gridWidth + cellX`.  The
scratch `pairs` vector is local to `query_grid_pairs` in the model. -/
structure SpatialHashGrid where
  worldMinX : ℚ
  worldMinY : ℚ
  worldMaxX : ℚ
  worldMaxY : ℚ
  cellSize : ℚ
  gridWidth : Int
  gridHeight : Int
  cells : List (List Nat)
deriving DecidableEq

/-- `create_spatial_grid` from broadphase.cpp (`(int)std::ceil` is exact on
the model's rationals for the non-negative extents used in practice). -/
def create_spatial_grid (worldMinX worldMinY worldMaxX worldMaxY cellSize : ℚ) :
    SpatialHashGrid :=
  let gw : Int := ⌈(worldMaxX - worldMinX) / cellSize⌉
  let gh : Int := ⌈(worldMaxY - worldMinY) / cellSize⌉
  { worldMinX := worldMinX, worldMinY := worldMinY
    worldMaxX := worldMaxX, worldMaxY := worldMaxY, cellSize := cellSize
    gridWidth := gw, gridHeight := gh
    cells := List.replicate (gw * gh).toNat [] }

/-- Map with the cell index (used to express the double insertion loop of
`insert_into_grid` as one pass over the cell array). -/
def mapIdxFrom (f : Nat → α → α) : Nat → List α → List α
  | _, [] => []
  | i, a :: l => f i a :: mapIdxFrom f (i + 1) l

/-- `insert_into_grid` from broadphase.cpp.  The C code iterates the clamped
cell rectangle [minCellX..maxCellX]×[minCellY..maxCellY] and pushes `bodyId`
into cell `y * gridWidth + x` once per visited cell; since `0 ≤ x < gridWidth`
after clamping, `idx = y * gridWidth + x` decodes uniquely to
`(idx % gridWidth, idx / gridWidth)`, so one indexed pass appending to every
cell whose decoded coordinates lie in the rectangle appends exactly the same
ids to exactly the same cells. -/
def insert_into_grid (g : SpatialHashGrid) (bodyId : Nat) (aabb : AABB) :
    SpatialHashGrid :=
  let minCellX := max 0 (min ⌊(aabb.minX - g.worldMinX) / g.cellSize⌋ (g.gridWidth - 1))
  let minCellY := max 0 (min ⌊(aabb.minY - g.worldMinY) / g.cellSize⌋ (g.gridHeight - 1))
  let maxCellX := max 0 (min ⌊(aabb.maxX - g.worldMinX) / g.cellSize⌋ (g.gridWidth - 1))
  let maxCellY := max 0 (min ⌊(aabb.maxY - g.worldMinY) / g.cellSize⌋ (g.gridHeight - 1))
  let upd := fun (idx : Nat) (cell : List Nat) =>
    let cx : Int := (idx : Int) % g.gridWidth
    let cy : Int := (idx : Int) / g.gridWidth
    if minCellX ≤ cx ∧ cx ≤ maxCellX ∧ minCellY ≤ cy ∧ cy ≤ maxCellY then
      cell ++ [bodyId]
    else cell
  { g with cells := mapIdxFrom upd 0 g.cells }

/-- Insert a batch of (id, bound) pairs (the per-frame usage pattern of
`insert_into_grid`). -/
def buildGrid (g : SpatialHashGrid) (bodies : List (Nat × AABB)) : SpatialHashGrid :=
  bodies.foldl (fun g p => insert_into_grid g p.1 p.2) g

/-- The canonical packed pair key `((uint64_t)min << 32) | max` of
broadphase.cpp, exact for ids < 2^32. -/
def pairKey (a b : Nat) : Nat := min a b * 2 ^ 32 + max a b

/-- The `j < k` double loop of `query_grid_pairs` over one cell's id list,
producing the packed canonical keys. -/
def cellPairKeys : List Nat → List Nat
  | [] => []
  | x :: xs => (xs.map fun y => pairKey x y) ++ cellPairKeys xs

/-- `std::unique` on the model: drop adjacent equal keys. -/
def dedupAdj : List Nat → List Nat
  | [] => []
  | [x] => [x]
  | x :: y :: rest => if x = y then dedupAdj (y :: rest) else x :: dedupAdj (y :: rest)

/-- `query_grid_pairs` from broadphase.cpp: collect all per-cell pair keys,
sort (`std::sort` computes the unique `≤`-sorted permutation, here realised
by insertion sort), drop adjacent duplicates (`std::unique`/`erase`), then
emit at most `maxPairs` decoded pairs. -/
def query_grid_pairs (g : SpatialHashGrid) (maxPairs : Nat) : List (Nat × Nat) :=
  let keys := (g.cells.map cellPairKeys).flatten
  let uniq := dedupAdj (List.insertionSort (· ≤ ·) keys)
  (uniq.take maxPairs).map fun k => (k / 2 ^ 32, k % 2 ^ 32)

/- ---------------------------------------------------------------------
Invariant predicates and concrete scenario inputs for the theorems below.
--------------------------------------------------------------------- -/

/-- Every accumulated normal impulse of every constraint point is
non-negative. -/
def constraintsNonneg (cs : List ContactConstraint) : Prop :=
  ∀ c ∈ cs, ∀ p ∈ c.points, 0 ≤ p.normalImpulse

/-- Every cached normal impulse is non-negative. -/
def cacheNonneg (cache : List (Nat × CachedImpulse)) : Prop :=
  ∀ e ∈ cache, 0 ≤ e.2.normalImpulse

/-- A fresh world with the `create_physics_world` solver configuration
(gravity −981, 120 Hz contacts, critical damping, 1 m/s restitution
threshold, `maxConstraints = maxBodies * 4`). -/
def baseWorld : World :=
  { bodies := [], maxBodies := 64, gravityX := 0, gravityY := -981
    velocityIterations := 8, positionIterations := 10, enableWarmStarting := true
    contactHertz := 120, contactDampingRat := 1, restitutionThreshold := 100
    maxLinearVelocity := 200000, constraints := [], maxConstraints := 256
    softBodies := [], warmStartCache := [] }

/-- One isolated dynamic circle (radius 2 at the origin, at rest). -/
def worldC1 : World := (create_body baseWorld DYNAMIC SHAPE_CIRCLE 0 0 4 4 0 1 1).1

/-- Two overlapping dynamic circles of radius 2 at distance 3. -/
def worldC2 : World :=
  (create_body (create_body baseWorld DYNAMIC SHAPE_CIRCLE 0 0 4 4 0 1 1).1
    DYNAMIC SHAPE_CIRCLE 3 0 4 4 0 1 1).1

/-- A world with no rigid bodies and one (degenerate single-point) soft
body, exactly as `create_soft_body(world, 1, {0}, {0}, 5, 0.5)` builds it. -/
def worldC3 : World := (create_soft_body baseWorld 1 [0] [0] 5 (1 / 2)).1

/-- The two-circle world with a seeded warm-start cache entry for contact
point 0 of the pair (0,1): key `(0 << 32) | (1 << 4) | 0 = 16`, normal
impulse 100. -/
def worldC4 : World :=
  { worldC2 with warmStartCache := [(warmKey 0 1 0, ⟨100, 0⟩)] }

/-- Concrete circle for the detector theorems. -/
def circW1 : NativeBody := (create_body baseWorld DYNAMIC SHAPE_CIRCLE 0 0 4 4 0 1 1).1.bodies.getD 0 defaultBody

/-- Concrete circle at distance 3 from `circW1`. -/
def circW2 : NativeBody := (create_body baseWorld DYNAMIC SHAPE_CIRCLE 3 0 4 4 0 1 1).1.bodies.getD 0 defaultBody

/-- Circle at (10,0) with radius 3 (for the circle–box normal direction). -/
def circCE : NativeBody := (create_body baseWorld DYNAMIC SHAPE_CIRCLE 10 0 6 6 0 1 1).1.bodies.getD 0 defaultBody

/-- 16×16 axis-aligned static box at the origin. -/
def boxCE : NativeBody := (create_body baseWorld STATIC SHAPE_BOX 0 0 16 16 0 1 1).1.bodies.getD 0 defaultBody

/-- A world with one dynamic body (for the invalid-id API theorems). -/
def worldC8 : World := (create_body baseWorld DYNAMIC SHAPE_CIRCLE 0 0 4 4 0 1 1).1

/-- A world with one 4-point square soft body. -/
def worldC9 : World := (create_soft_body baseWorld 4 [0, 4, 4, 0] [0, 0, 4, 4] 10 (1 / 2)).1

/-- A concrete kinematic body with a pending force. -/
def bodyC10 : NativeBody :=
  { defaultBody with
    type := KINEMATIC
    vx := 10
    vy := -3
    inverseMass := 1
    forceY := 7
    isAwake := true }

/-- A 1×1-cell grid over [0,10]², with two bodies 0 and 1 inserted with
overlapping bounds. -/
def gridC7 : SpatialHashGrid :=
  buildGrid (create_spatial_grid 0 0 10 10 10)
    [(0, ⟨1, 1, 3, 3⟩), (1, ⟨2, 2, 4, 4⟩)]

/-- A concrete contact-constraint point with nonzero anchors (for the
warm-start witness). -/
def cpW4 : ContactConstraintPoint :=
  { anchorAx := 1, anchorAy := 2, anchorBx := -1, anchorBy := -2
    baseSeparation := -3, normalImpulse := 0, tangentImpulse := 0
    normalMass := 5, tangentMass := 6 }

/-- A concrete warm-start cache holding impulse (100, 40) for point 0 of the
pair (0, 1). -/
def cacheW4 : List (Nat × CachedImpulse) := [(warmKey 0 1 0, ⟨100, 40⟩)]

instance (cs : List ContactConstraint) : Decidable (constraintsNonneg cs) := by
  unfold constraintsNonneg; infer_instance

instance (cache : List (Nat × CachedImpulse)) : Decidable (cacheNonneg cache) := by
  unfold cacheNonneg; infer_instance

/- =====================================================================
Theorems
===================================================================== -/

theorem sqrtQ_nonneg (q : ℚ) : 0 ≤ sqrtQ q := Rat.sqrt_nonneg q

theorem sqrtQ_mul_self {q : ℚ} (h : 0 ≤ q) : sqrtQ (q * q) = q := by
  rw [sqrtQ, Rat.sqrt_eq, abs_of_nonneg h]

theorem sqrtQ_pos {q : ℚ} (h : 0 < q) : 0 < sqrtQ q := by
  rw [sqrtQ, Rat.sqrt, Rat.mkRat_eq_div]
  have hnum : (0 : ℤ) < q.num := Rat.num_pos.mpr h
  have h1 : 0 < Int.sqrt q.num := by
    rw [Int.sqrt]
    have : 0 < Nat.sqrt q.num.toNat := Nat.sqrt_pos.mpr (by omega)
    exact_mod_cast this
  have h2 : 0 < Nat.sqrt q.den := Nat.sqrt_pos.mpr q.pos
  have h2q : (0 : ℚ) < (Nat.sqrt q.den : ℚ) := by exact_mod_cast h2
  have h1q : (0 : ℚ) < (Int.sqrt q.num : ℚ) := by exact_mod_cast h1
  exact div_pos h1q h2q

theorem cosQ_neg (t : ℚ) : cosQ (-t) = cosQ t := by unfold cosQ; ring

theorem sinQ_neg (t : ℚ) : sinQ (-t) = -sinQ t := by unfold sinQ; ring

theorem smul_dot (v w : Vec2) (s : ℚ) : (v.smul s).dot w = s * v.dot w := by
  simp only [Vec2.smul, Vec2.dot]; ring

/-- Rotating a vector into world frame and then projecting onto `d` is the
same as projecting onto `d` expressed in the local frame (exact for the
polynomial `cosQ`/`sinQ` models, by their parity). -/
theorem rotate_dot_localD (u d : Vec2) (t : ℚ) :
    (rotateQ u t).dot d = u.dot (rotateQ d (-t)) := by
  simp only [rotateQ, Vec2.dot, cosQ_neg, sinQ_neg]; ring

theorem clamp_mul_nonneg (x hw : ℚ) (h : 0 ≤ hw) :
    0 ≤ (x - max (-hw) (min hw x)) * x := by
  rcases le_total hw x with h2 | h2 <;> rcases le_total x (-hw) with h1 | h1 <;>
    simp only [max_def, min_def] <;> split_ifs <;> nlinarith

/-- `detectCircleCircle`'s normal (when it collides) points from its first
argument toward its second. -/
theorem detectCircleCircle_dot (a b : NativeBody)
    (hc : (detectCircleCircle a b).collided = true) :
    0 ≤ (detectCircleCircle a b).normal.dot ⟨b.x - a.x, b.y - a.y⟩ := by
  unfold detectCircleCircle at *
  dsimp only at hc ⊢
  split_ifs at hc ⊢ with h1 h2
  · simp [noCollision] at hc
  · -- degenerate branch: the distance square must be 0
    have hnn : (0 : ℚ) ≤ (Vec2.mk (b.x - a.x) (b.y - a.y)).lengthSq := by
      simp only [Vec2.lengthSq]
      nlinarith [mul_self_nonneg (b.x - a.x), mul_self_nonneg (b.y - a.y)]
    have hz : (Vec2.mk (b.x - a.x) (b.y - a.y)).lengthSq = 0 := by
      by_contra hne
      have hpos : 0 < ((Vec2.mk b.x b.y).sub ⟨a.x, a.y⟩).lengthSq := by
        simp only [Vec2.sub] at *
        exact lt_of_le_of_ne hnn (Ne.symm hne)
      exact absurd h2 (ne_of_gt (sqrtQ_pos hpos))
    simp only [Vec2.lengthSq] at hz
    have hy : b.y - a.y = 0 := by nlinarith
    simp [Vec2.dot, hy]
  · rw [smul_dot]
    have h1d : (0 : ℚ) ≤ 1 / sqrtQ ((Vec2.mk b.x b.y).sub ⟨a.x, a.y⟩).lengthSq :=
      one_div_nonneg.mpr (sqrtQ_nonneg _)
    have hsq : (0 : ℚ) ≤ ((Vec2.mk b.x b.y).sub ⟨a.x, a.y⟩).dot ⟨b.x - a.x, b.y - a.y⟩ := by
      simp only [Vec2.sub, Vec2.dot]
      nlinarith [mul_self_nonneg (b.x - a.x), mul_self_nonneg (b.y - a.y)]
    exact mul_nonneg h1d hsq

/-- `detectBoxBox`'s normal (when it collides) points from its first argument
toward its second (the explicit `bestAxis.dot d < 0` flip). -/
theorem detectBoxBox_dot (a b : NativeBody)
    (hc : (detectBoxBox a b).collided = true) :
    0 ≤ (detectBoxBox a b).normal.dot ⟨b.x - a.x, b.y - a.y⟩ := by
  unfold detectBoxBox at *
  dsimp only at hc ⊢
  rcases hscan : satScan a b
      [(rotateQ ⟨1, 0⟩ a.rotation, true), (rotateQ ⟨0, 1⟩ a.rotation, true),
       (rotateQ ⟨1, 0⟩ b.rotation, false), (rotateQ ⟨0, 1⟩ b.rotation, false)]
      (10000000000, ⟨0, 0⟩, true) with _ | ⟨mo, ax, r⟩
  · rw [hscan] at hc; simp [noCollision] at hc
  · dsimp only at hc ⊢
    split_ifs with hflip
    · rw [smul_dot]; nlinarith
    · exact le_of_not_lt hflip

/-- `detectCircleBox`'s normal (when it collides) points from the box (its
second argument) toward the circle (its first argument). -/
theorem detectCircleBox_dot (c bx : NativeBody)
    (hwn : 0 ≤ bx.width) (hhn : 0 ≤ bx.height)
    (hc : (detectCircleBox c bx).collided = true) :
    0 ≤ (detectCircleBox c bx).normal.dot ⟨c.x - bx.x, c.y - bx.y⟩ := by
  unfold detectCircleBox at *
  dsimp only at hc ⊢
  split_ifs at hc ⊢ with h1 h2 h3 h4 h5
  · simp [noCollision] at hc
  · -- main branch: normal = rotate(localNormal) / dist
    rw [smul_dot, rotate_dot_localD]
    refine mul_nonneg (one_div_nonneg.mpr (sqrtQ_nonneg _)) ?_
    have hx := clamp_mul_nonneg
      (rotateQ (Vec2.mk (c.x - bx.x) (c.y - bx.y)) (-bx.rotation)).x (bx.width / 2)
      (by linarith)
    have hy := clamp_mul_nonneg
      (rotateQ (Vec2.mk (c.x - bx.x) (c.y - bx.y)) (-bx.rotation)).y (bx.height / 2)
      (by linarith)
    simp only [Vec2.sub, Vec2.dot] at *
    linarith
  · rw [rotate_dot_localD]
    simp only [Vec2.dot, Vec2.sub] at h4 ⊢
    nlinarith
  · rw [rotate_dot_localD]
    simp only [Vec2.dot, Vec2.sub] at h4 ⊢
    nlinarith [le_of_not_lt h4]
  · rw [rotate_dot_localD]
    simp only [Vec2.dot, Vec2.sub] at h5 ⊢
    nlinarith
  · rw [rotate_dot_localD]
    simp only [Vec2.dot, Vec2.sub] at h5 ⊢
    nlinarith [le_of_not_lt h5]

/-- C5: for two circles whose centers are at (exactly representable)
distance `dist > 0`, `detectCircleCircle` reports a collision iff
`dist < r1 + r2`, and the reported penetration is exactly
`r1 + r2 - dist`. -/
theorem circleCircle_collision_iff (a b : NativeBody) (dist : ℚ)
    (hr1 : 0 ≤ a.radius) (hr2 : 0 ≤ b.radius) (hd : 0 < dist)
    (hdist : (b.x - a.x) * (b.x - a.x) + (b.y - a.y) * (b.y - a.y) = dist * dist) :
    ((detectCircleCircle a b).collided = true ↔ dist < a.radius + b.radius) ∧
    ((detectCircleCircle a b).collided = true →
      (detectCircleCircle a b).penetration = a.radius + b.radius - dist) := by
  unfold detectCircleCircle
  dsimp only
  simp only [Vec2.sub, Vec2.lengthSq]
  rw [hdist, sqrtQ_mul_self hd.le]
  split_ifs with h1 h2
  · constructor
    · simp only [noCollision]
      constructor
      · intro h; simp at h
      · intro h; nlinarith
    · intro h; simp [noCollision] at h
  · exact absurd h2 (ne_of_gt hd)
  · constructor
    · constructor
      · intro _; nlinarith
      · intro _; rfl
    · intro _; rfl

/-- Witness for C5 on two concrete radius-2 circles at distance 3. -/
theorem circleCircle_collision_iff_witness :
    ((detectCircleCircle circW1 circW2).collided = true ↔
      (3 : ℚ) < circW1.radius + circW2.radius) ∧
    ((detectCircleCircle circW1 circW2).collided = true →
      (detectCircleCircle circW1 circW2).penetration = circW1.radius + circW2.radius - 3) :=
  circleCircle_collision_iff circW1 circW2 3 (by with_unfolding_all decide)
    (by with_unfolding_all decide) (by with_unfolding_all decide) (by with_unfolding_all decide)

/-- C6 counterexample: taken as a statement about the narrow-phase detection
functions themselves, "the normal points from the first argument's body
toward the second's" fails for the circle–box pairing: for a circle at
(10,0) with radius 3 against a 16×16 box at the origin,
`detectCircleBox(circle, box)` collides and its normal has strictly negative
dot product with the vector from the circle (first argument) to the box
(second argument) — it points from the box toward the circle. -/
theorem manifold_normal_direction_cex :
    (detectCircleBox circCE boxCE).collided = true ∧
    (detectCircleBox circCE boxCE).normal.dot ⟨boxCE.x - circCE.x, boxCE.y - circCE.y⟩ < 0 := by
  constructor
  · with_unfolding_all decide
  · with_unfolding_all decide

/-- C6 (amended): at the `step_physics` dispatch level — the code both
phases (constraint building and position-correction re-evaluation) run
verbatim, embedded once as `pairManifold`, including the circle–box sign
flip — the manifold normal points from pair body A toward pair body B for
all three shape pairings; the raw `detectCircleBox` normal instead points
from the box (second argument) toward the circle (first argument). -/
theorem manifold_normal_direction (a b : NativeBody)
    (ha : a.shapeType = SHAPE_CIRCLE ∨ a.shapeType = SHAPE_BOX)
    (hb : b.shapeType = SHAPE_CIRCLE ∨ b.shapeType = SHAPE_BOX)
    (haw : 0 ≤ a.width) (hah : 0 ≤ a.height) (hbw : 0 ≤ b.width) (hbh : 0 ≤ b.height)
    (hc : (pairManifold a b).collided = true) :
    0 ≤ (pairManifold a b).normal.dot ⟨b.x - a.x, b.y - a.y⟩ := by
  unfold pairManifold at *
  rcases ha with ha | ha <;> rcases hb with hb | hb <;>
    simp only [ha, hb, SHAPE_CIRCLE, SHAPE_BOX] at hc ⊢ <;>
    norm_num at hc ⊢
  · exact detectCircleCircle_dot a b hc
  · -- circle–box: flip applied when the raw manifold collides
    rcases hflip : (detectCircleBox a b).collided
    · simp [hflip] at hc
    · have hdir := detectCircleBox_dot a b hbw hbh hflip
      simp only [reduceIte]
      simp only [Vec2.smul, Vec2.dot] at hdir ⊢
      nlinarith
  · exact detectCircleBox_dot b a haw hah hc
  · exact detectBoxBox_dot a b hc

/-- Witness for the amended C6: a concrete colliding circle–box pair (the
flipped dispatch normal points from the circle toward the box). -/
theorem manifold_normal_direction_witness :
    0 ≤ (pairManifold circCE boxCE).normal.dot ⟨boxCE.x - circCE.x, boxCE.y - circCE.y⟩ :=
  manifold_normal_direction circCE boxCE (by with_unfolding_all decide)
    (by with_unfolding_all decide) (by with_unfolding_all decide) (by with_unfolding_all decide)
    (by with_unfolding_all decide) (by with_unfolding_all decide) (by with_unfolding_all decide)

theorem length_modifyAt (l : List α) (i : Nat) (f : α → α) :
    (modifyAt l i f).length = l.length := by
  induction l generalizing i with
  | nil => rfl
  | cons a t ih => cases i with
    | zero => rfl
    | succ n => simp [modifyAt, ih]

theorem getD_modifyAt_self (l : List α) (i : Nat) (f : α → α) (d : α)
    (h : i < l.length) : (modifyAt l i f).getD i d = f (l.getD i d) := by
  induction l generalizing i with
  | nil => simp at h
  | cons a t ih => cases i with
    | zero => rfl
    | succ n => simpa [modifyAt] using ih n (by simpa using h)

theorem getD_modifyAt_ne (l : List α) (i j : Nat) (f : α → α) (d : α)
    (h : i ≠ j) : (modifyAt l i f).getD j d = l.getD j d := by
  induction l generalizing i j with
  | nil => rfl
  | cons a t ih => cases i with
    | zero => cases j with
      | zero => exact absurd rfl h
      | succ m => rfl
    | succ n => cases j with
      | zero => rfl
      | succ m => simpa [modifyAt] using ih n m (by omega)

theorem mem_modifyAt {l : List α} {i : Nat} {f : α → α} :
    ∀ x ∈ modifyAt l i f, x ∈ l ∨ ∃ y ∈ l, x = f y := by
  induction l generalizing i with
  | nil => intro x hx; simp [modifyAt] at hx
  | cons a t ih =>
    cases i with
    | zero =>
      intro x hx
      rcases List.mem_cons.mp hx with hx | hx
      · exact Or.inr ⟨a, List.mem_cons_self a t, hx⟩
      · exact Or.inl (List.mem_cons_of_mem a hx)
    | succ n =>
      intro x hx
      rcases List.mem_cons.mp hx with hx | hx
      · exact Or.inl (hx ▸ List.mem_cons_self a t)
      · rcases ih x hx with h | ⟨y, hy, hxy⟩
        · exact Or.inl (List.mem_cons_of_mem a h)
        · exact Or.inr ⟨y, List.mem_cons_of_mem a hy, hxy⟩

/-- C8 counterexample: on an invalid id the output pointees of
`get_body_position` are left untouched, not set to default/zero — with
pointees previously holding (5, 7) and body id −1, the result is (5, 7),
not (0, 0). -/
theorem invalid_id_noop_cex :
    get_body_position (some worldC8) (-1) 5 7 ≠ (0, 0) ∧
    get_body_position (some worldC8) (-1) 5 7 = (5, 7) := by
  constructor <;> with_unfolding_all decide

/-- C8 (amended): for an out-of-range body id or a null world,
`get_body_position` writes nothing through its output pointers (they keep
their prior values, rather than being set to default/zero), and
`apply_force`, `apply_torque` and `set_body_velocity` leave all world state
unchanged. -/
theorem invalid_id_noop (w : World) (bodyId : Int) (ox oy fx fy tq vx vy : ℚ)
    (hinv : bodyId < 0 ∨ (w.bodies.length : Int) ≤ bodyId) :
    get_body_position (some w) bodyId ox oy = (ox, oy) ∧
    apply_force (some w) bodyId fx fy = some w ∧
    apply_torque (some w) bodyId tq = some w ∧
    set_body_velocity (some w) bodyId vx vy = some w ∧
    get_body_position none bodyId ox oy = (ox, oy) ∧
    apply_force none bodyId fx fy = none ∧
    apply_torque none bodyId tq = none ∧
    set_body_velocity none bodyId vx vy = none := by
  have hcond : ¬(0 ≤ bodyId ∧ bodyId < (w.bodies.length : Int)) := by omega
  unfold get_body_position apply_force apply_torque set_body_velocity
  simp [hcond]

/-- Witness for the amended C8 at body id −1. -/
theorem invalid_id_noop_witness :
    get_body_position (some worldC8) (-1) 5 7 = (5, 7) ∧
    apply_force (some worldC8) (-1) 1 2 = some worldC8 ∧
    apply_torque (some worldC8) (-1) 3 = some worldC8 ∧
    set_body_velocity (some worldC8) (-1) 4 6 = some worldC8 ∧
    get_body_position none (-1) 5 7 = (5, 7) ∧
    apply_force none (-1) 1 2 = none ∧
    apply_torque none (-1) 3 = none ∧
    set_body_velocity none (-1) 4 6 = none :=
  invalid_id_noop worldC8 (-1) 5 7 1 2 3 4 6 (Or.inl (by norm_num))

/-- C9: for a valid soft-body id and in-range point index,
`set_soft_body_point` writes both the current and the previous (Verlet)
position, so the implied velocity `pos - oldPos` is zero immediately after
the call. -/
theorem set_soft_body_point_spec (w : World) (sbId pointIdx : Int) (x y : ℚ)
    (h0 : 0 ≤ sbId) (h1 : sbId < (w.softBodies.length : Int))
    (h2 : 0 ≤ pointIdx)
    (h3 : pointIdx <
      (((w.softBodies.getD sbId.toNat defaultSoftBody).points.length : Int))) :
    (((set_soft_body_point w sbId pointIdx x y).softBodies.getD sbId.toNat
        defaultSoftBody).points.getD pointIdx.toNat defaultSBPoint).x = x ∧
    (((set_soft_body_point w sbId pointIdx x y).softBodies.getD sbId.toNat
        defaultSoftBody).points.getD pointIdx.toNat defaultSBPoint).y = y ∧
    (((set_soft_body_point w sbId pointIdx x y).softBodies.getD sbId.toNat
        defaultSoftBody).points.getD pointIdx.toNat defaultSBPoint).oldX = x ∧
    (((set_soft_body_point w sbId pointIdx x y).softBodies.getD sbId.toNat
        defaultSoftBody).points.getD pointIdx.toNat defaultSBPoint).oldY = y ∧
    (((set_soft_body_point w sbId pointIdx x y).softBodies.getD sbId.toNat
        defaultSoftBody).points.getD pointIdx.toNat defaultSBPoint).x -
      (((set_soft_body_point w sbId pointIdx x y).softBodies.getD sbId.toNat
        defaultSoftBody).points.getD pointIdx.toNat defaultSBPoint).oldX = 0 ∧
    (((set_soft_body_point w sbId pointIdx x y).softBodies.getD sbId.toNat
        defaultSoftBody).points.getD pointIdx.toNat defaultSBPoint).y -
      (((set_soft_body_point w sbId pointIdx x y).softBodies.getD sbId.toNat
        defaultSoftBody).points.getD pointIdx.toNat defaultSBPoint).oldY = 0 := by
  have g1 : ¬(sbId < 0 ∨ (w.softBodies.length : Int) ≤ sbId) := by omega
  have g2 : ¬(pointIdx < 0 ∨
      (((w.softBodies.getD sbId.toNat defaultSoftBody).points.length : Int)) ≤ pointIdx) := by
    omega
  have hslt : sbId.toNat < w.softBodies.length := by omega
  have hplt : pointIdx.toNat <
      (w.softBodies.getD sbId.toNat defaultSoftBody).points.length := by omega
  unfold set_soft_body_point
  rw [if_neg g1, if_neg g2]
  dsimp only
  rw [getD_modifyAt_self _ _ _ _ hslt]
  dsimp only
  rw [getD_modifyAt_self _ _ _ _ hplt]
  simp

/-- Witness for C9 on a concrete 4-point soft body. -/
theorem set_soft_body_point_spec_witness :
    (((set_soft_body_point worldC9 0 1 7 9).softBodies.getD (0 : Int).toNat
        defaultSoftBody).points.getD (1 : Int).toNat defaultSBPoint).x = 7 ∧
    (((set_soft_body_point worldC9 0 1 7 9).softBodies.getD (0 : Int).toNat
        defaultSoftBody).points.getD (1 : Int).toNat defaultSBPoint).y = 9 ∧
    (((set_soft_body_point worldC9 0 1 7 9).softBodies.getD (0 : Int).toNat
        defaultSoftBody).points.getD (1 : Int).toNat defaultSBPoint).oldX = 7 ∧
    (((set_soft_body_point worldC9 0 1 7 9).softBodies.getD (0 : Int).toNat
        defaultSoftBody).points.getD (1 : Int).toNat defaultSBPoint).oldY = 9 ∧
    (((set_soft_body_point worldC9 0 1 7 9).softBodies.getD (0 : Int).toNat
        defaultSoftBody).points.getD (1 : Int).toNat defaultSBPoint).x -
      (((set_soft_body_point worldC9 0 1 7 9).softBodies.getD (0 : Int).toNat
        defaultSoftBody).points.getD (1 : Int).toNat defaultSBPoint).oldX = 0 ∧
    (((set_soft_body_point worldC9 0 1 7 9).softBodies.getD (0 : Int).toNat
        defaultSoftBody).points.getD (1 : Int).toNat defaultSBPoint).y -
      (((set_soft_body_point worldC9 0 1 7 9).softBodies.getD (0 : Int).toNat
        defaultSoftBody).points.getD (1 : Int).toNat defaultSBPoint).oldY = 0 :=
  set_soft_body_point_spec worldC9 0 1 7 9 (by norm_num)
    (by with_unfolding_all decide) (by norm_num) (by with_unfolding_all decide)

/-- C10: in the force-integration phase (`integrateVelocity`, phase 2 of
`step_physics`), a kinematic body that does not cross the sleep threshold is
integrated exactly like a dynamic body: gravity plus accumulated force times
inverse mass, scaled by `dt`, is added into its linear velocity (followed by
the same 0.999 damping applied to dynamic bodies); only static bodies are
excluded. -/
theorem kinematic_integration (gx gy dt : ℚ) (b : NativeBody)
    (hk : b.type = KINEMATIC) (haw : b.isAwake = true) (hst : b.sleepTime + dt ≤ 1) :
    (integrateVelocity gx gy dt b).vx =
      (b.vx + (gx + b.forceX * b.inverseMass) * dt) * (999 / 1000) ∧
    (integrateVelocity gx gy dt b).vy =
      (b.vy + (gy + b.forceY * b.inverseMass) * dt) * (999 / 1000) ∧
    integrateVelocity gx gy dt b =
      { integrateVelocity gx gy dt { b with type := DYNAMIC } with type := KINEMATIC } ∧
    (∀ s : NativeBody, s.type = STATIC → integrateVelocity gx gy dt s = s) := by
  refine ⟨?_, ?_, ?_, ?_⟩
  · unfold integrateVelocity
    dsimp only
    split_ifs with h1 h2 h3 h4 <;>
      first
        | rfl
        | linarith
        | simp [hk, KINEMATIC, STATIC] at h1
  · unfold integrateVelocity
    dsimp only
    split_ifs with h1 h2 h3 h4 <;>
      first
        | rfl
        | linarith
        | simp [hk, KINEMATIC, STATIC] at h1
  · unfold integrateVelocity
    dsimp only
    split_ifs with h1 h2 h3 h4 <;>
      first
        | linarith
        | (simp [hk, KINEMATIC, STATIC] at h1; done)
        | (simp [DYNAMIC, STATIC] at *; done)
        | (simp [hk]; done)
  · intro s hs
    unfold integrateVelocity
    rw [if_pos hs]

/-- Witness for C10 on a concrete kinematic body under gravity. -/
theorem kinematic_integration_witness :
    (integrateVelocity 0 (-981) (1 / 60) bodyC10).vx =
      (bodyC10.vx + (0 + bodyC10.forceX * bodyC10.inverseMass) * (1 / 60)) * (999 / 1000) ∧
    (integrateVelocity 0 (-981) (1 / 60) bodyC10).vy =
      (bodyC10.vy + (-981 + bodyC10.forceY * bodyC10.inverseMass) * (1 / 60)) * (999 / 1000) ∧
    integrateVelocity 0 (-981) (1 / 60) bodyC10 =
      { integrateVelocity 0 (-981) (1 / 60) { bodyC10 with type := DYNAMIC } with
        type := KINEMATIC } ∧
    (∀ s : NativeBody, s.type = STATIC → integrateVelocity 0 (-981) (1 / 60) s = s) :=
  kinematic_integration 0 (-981) (1 / 60) bodyC10 (by with_unfolding_all decide)
    (by with_unfolding_all decide) (by with_unfolding_all decide)

/-- C4 counterexample: running the real pipeline prefix (build constraints,
integrate velocities, warm-start) on the two-circle world with a cached
normal impulse of 100 for contact point 0 of pair (0,1) leaves body 1 with
`vx = 100` — the full cached impulse — not `impulseScale * 100` as the claim
("scaled by the softness impulseScale coefficient") predicts. -/
theorem warm_start_full_impulse_cex :
    ((solveStartState worldC4 (1 / 60)).1.getD 1 defaultBody).vx = 100 ∧
    ((solveStartState worldC4 (1 / 60)).1.getD 1 defaultBody).vx ≠
      (makeSoftness worldC4.contactHertz worldC4.contactDampingRat (1 / 60)).impulseScale *
        100 := by
  constructor <;> with_unfolding_all decide

/-- C4 (amended): during warm starting, a contact point whose key is found
in the previous step's cache has its accumulated impulses seeded from the
cache and the impulse `P = normal·cachedNormal + tangent·cachedTangent`
reapplied immediately to both (non-static) bodies' velocities at full
magnitude — with no `impulseScale` factor; `impulseScale` instead attenuates
the accumulated impulse inside each velocity-iteration update. -/
theorem warm_start_full_impulse (cache : List (Nat × CachedImpulse)) (cA cB : Nat)
    (nrm tng : Vec2) (j : Nat) (cp : ContactConstraintPoint) (bs : List NativeBody)
    (imp : CachedImpulse)
    (hhit : lookupCache cache (warmKey cA cB j) = some imp)
    (hne : cA ≠ cB) (hA : cA < bs.length) (hB : cB < bs.length)
    (hta : (bs.getD cA defaultBody).type ≠ STATIC)
    (htb : (bs.getD cB defaultBody).type ≠ STATIC) :
    ((warmPoints cache cA cB nrm tng j [cp] bs).1.getD cA defaultBody).vx =
      (bs.getD cA defaultBody).vx -
        ((nrm.smul imp.normalImpulse).add (tng.smul imp.tangentImpulse)).x *
          (bs.getD cA defaultBody).inverseMass ∧
    ((warmPoints cache cA cB nrm tng j [cp] bs).1.getD cA defaultBody).vy =
      (bs.getD cA defaultBody).vy -
        ((nrm.smul imp.normalImpulse).add (tng.smul imp.tangentImpulse)).y *
          (bs.getD cA defaultBody).inverseMass ∧
    ((warmPoints cache cA cB nrm tng j [cp] bs).1.getD cA defaultBody).angularVelocity =
      (bs.getD cA defaultBody).angularVelocity -
        Vec2.crossV ⟨cp.anchorAx, cp.anchorAy⟩
            ((nrm.smul imp.normalImpulse).add (tng.smul imp.tangentImpulse)) *
          (bs.getD cA defaultBody).inverseInertia ∧
    ((warmPoints cache cA cB nrm tng j [cp] bs).1.getD cB defaultBody).vx =
      (bs.getD cB defaultBody).vx +
        ((nrm.smul imp.normalImpulse).add (tng.smul imp.tangentImpulse)).x *
          (bs.getD cB defaultBody).inverseMass ∧
    ((warmPoints cache cA cB nrm tng j [cp] bs).1.getD cB defaultBody).vy =
      (bs.getD cB defaultBody).vy +
        ((nrm.smul imp.normalImpulse).add (tng.smul imp.tangentImpulse)).y *
          (bs.getD cB defaultBody).inverseMass ∧
    ((warmPoints cache cA cB nrm tng j [cp] bs).1.getD cB defaultBody).angularVelocity =
      (bs.getD cB defaultBody).angularVelocity +
        Vec2.crossV ⟨cp.anchorBx, cp.anchorBy⟩
            ((nrm.smul imp.normalImpulse).add (tng.smul imp.tangentImpulse)) *
          (bs.getD cB defaultBody).inverseInertia ∧
    (warmPoints cache cA cB nrm tng j [cp] bs).2 =
      [{ cp with normalImpulse := imp.normalImpulse, tangentImpulse := imp.tangentImpulse }] := by
  simp only [warmPoints, hhit]
  unfold warmStartApply
  rw [getD_modifyAt_ne _ cB cA _ _ (Ne.symm hne),
    getD_modifyAt_self _ _ _ _ hA,
    getD_modifyAt_self _ _ _ _ (by rw [length_modifyAt]; exact hB),
    getD_modifyAt_ne _ cA cB _ _ hne]
  rw [if_pos hta, if_pos htb]
  simp

/-- Witness for the amended C4 on the two-circle world's bodies with a
nonzero cached impulse. -/
theorem warm_start_full_impulse_witness :
    ((warmPoints cacheW4 0 1 ⟨1, 0⟩ ⟨0, 1⟩ 0 [cpW4] worldC2.bodies).1.getD 0
        defaultBody).vx =
      (worldC2.bodies.getD 0 defaultBody).vx -
        ((Vec2.smul ⟨1, 0⟩ (100 : ℚ)).add (Vec2.smul ⟨0, 1⟩ (40 : ℚ))).x *
          (worldC2.bodies.getD 0 defaultBody).inverseMass ∧
    ((warmPoints cacheW4 0 1 ⟨1, 0⟩ ⟨0, 1⟩ 0 [cpW4] worldC2.bodies).1.getD 0
        defaultBody).vy =
      (worldC2.bodies.getD 0 defaultBody).vy -
        ((Vec2.smul ⟨1, 0⟩ (100 : ℚ)).add (Vec2.smul ⟨0, 1⟩ (40 : ℚ))).y *
          (worldC2.bodies.getD 0 defaultBody).inverseMass ∧
    ((warmPoints cacheW4 0 1 ⟨1, 0⟩ ⟨0, 1⟩ 0 [cpW4] worldC2.bodies).1.getD 0
        defaultBody).angularVelocity =
      (worldC2.bodies.getD 0 defaultBody).angularVelocity -
        Vec2.crossV ⟨cpW4.anchorAx, cpW4.anchorAy⟩
            ((Vec2.smul ⟨1, 0⟩ (100 : ℚ)).add (Vec2.smul ⟨0, 1⟩ (40 : ℚ))) *
          (worldC2.bodies.getD 0 defaultBody).inverseInertia ∧
    ((warmPoints cacheW4 0 1 ⟨1, 0⟩ ⟨0, 1⟩ 0 [cpW4] worldC2.bodies).1.getD 1
        defaultBody).vx =
      (worldC2.bodies.getD 1 defaultBody).vx +
        ((Vec2.smul ⟨1, 0⟩ (100 : ℚ)).add (Vec2.smul ⟨0, 1⟩ (40 : ℚ))).x *
          (worldC2.bodies.getD 1 defaultBody).inverseMass ∧
    ((warmPoints cacheW4 0 1 ⟨1, 0⟩ ⟨0, 1⟩ 0 [cpW4] worldC2.bodies).1.getD 1
        defaultBody).vy =
      (worldC2.bodies.getD 1 defaultBody).vy +
        ((Vec2.smul ⟨1, 0⟩ (100 : ℚ)).add (Vec2.smul ⟨0, 1⟩ (40 : ℚ))).y *
          (worldC2.bodies.getD 1 defaultBody).inverseMass ∧
    ((warmPoints cacheW4 0 1 ⟨1, 0⟩ ⟨0, 1⟩ 0 [cpW4] worldC2.bodies).1.getD 1
        defaultBody).angularVelocity =
      (worldC2.bodies.getD 1 defaultBody).angularVelocity +
        Vec2.crossV ⟨cpW4.anchorBx, cpW4.anchorBy⟩
            ((Vec2.smul ⟨1, 0⟩ (100 : ℚ)).add (Vec2.smul ⟨0, 1⟩ (40 : ℚ))) *
          (worldC2.bodies.getD 1 defaultBody).inverseInertia ∧
    (warmPoints cacheW4 0 1 ⟨1, 0⟩ ⟨0, 1⟩ 0 [cpW4] worldC2.bodies).2 =
      [{ cpW4 with normalImpulse := 100, tangentImpulse := 40 }] :=
  warm_start_full_impulse cacheW4 0 1 ⟨1, 0⟩ ⟨0, 1⟩ 0 cpW4 worldC2.bodies ⟨100, 40⟩
    (by with_unfolding_all decide) (by norm_num) (by with_unfolding_all decide)
    (by with_unfolding_all decide) (by with_unfolding_all decide)
    (by with_unfolding_all decide)

set_option maxRecDepth 8000 in
/-- C3 counterexample: in a world with no rigid bodies but one soft body,
`step_physics` with dt = 1 is *not* a no-op — the soft body is stepped
before the active-body early-out, its single point falling to y = −981. -/
theorem step_noop_conditions_cex :
    worldC3.bodies = [] ∧
    (((step_physics worldC3 1).softBodies.getD 0 defaultSoftBody).points.getD 0
      defaultSBPoint).y = -981 ∧
    ((worldC3.softBodies.getD 0 defaultSoftBody).points.getD 0 defaultSBPoint).y = 0 ∧
    step_physics worldC3 1 ≠ worldC3 := by
  have h1 : (((step_physics worldC3 1).softBodies.getD 0 defaultSoftBody).points.getD 0
      defaultSBPoint).y = -981 := by with_unfolding_all decide
  have h2 : ((worldC3.softBodies.getD 0 defaultSoftBody).points.getD 0
      defaultSBPoint).y = 0 := by with_unfolding_all decide
  refine ⟨by with_unfolding_all decide, h1, h2, fun he => ?_⟩
  rw [he] at h1
  rw [h2] at h1
  norm_num at h1

/-- C3 (amended): `step_physics(world, dt)` is a no-op when `dt ≤ 0`; when
`dt > 0` and there are no active rigid bodies, only the soft-body stepper
runs — the step equals `step_soft_body`, which leaves the rigid-body array
(and every other non-soft field) unchanged and steps only the soft bodies. -/
theorem step_noop_conditions (w : World) (dt : ℚ) :
    (dt ≤ 0 → step_physics w dt = w) ∧
    (0 < dt → w.bodies = [] →
      step_physics w dt = step_soft_body w dt ∧
      (step_soft_body w dt).bodies = w.bodies) := by
  constructor
  · intro h
    unfold step_physics
    rw [if_pos h]
  · intro hdt hb
    refine ⟨?_, rfl⟩
    unfold step_physics
    rw [if_neg (not_le.mpr hdt)]
    dsimp only
    rw [if_pos ?_]
    show (step_soft_body w dt).bodies.length = 0
    show w.bodies.length = 0
    rw [hb]
    rfl

/-- Witness for the amended C3 (dt = 0 no-op; dt = 1 with no rigid bodies
reduces to the soft-body step). -/
theorem step_noop_conditions_witness :
    step_physics worldC3 0 = worldC3 ∧
    step_physics worldC3 1 = step_soft_body worldC3 1 :=
  ⟨(step_noop_conditions worldC3 0).1 (by norm_num),
   ((step_noop_conditions worldC3 1).2 (by norm_num) (by with_unfolding_all decide)).1⟩

theorem queryTreePairsModel_single (b : NativeBody) (n : Nat) :
    queryTreePairsModel [b] n = [] := by
  simp [queryTreePairsModel]

theorem velocityIteration_nil (bs : List NativeBody) :
    velocityIteration (bs, []) = (bs, []) := rfl

theorem positionIteration_nil (bs : List NativeBody) :
    positionIteration [] bs = bs := rfl

theorem warmStartPhase_nil (e : Bool) (cache : List (Nat × CachedImpulse))
    (bs : List NativeBody) : warmStartPhase e cache (bs, []) = (bs, []) := by
  cases e <;> rfl

/-- On a one-body world the whole rigid pipeline reduces to velocity
integration followed by position integration (no pairs, no constraints). -/
theorem step_single (w : World) (b : NativeBody) (dt : ℚ)
    (hb : w.bodies = [b]) (hdt : 0 < dt) :
    (step_physics w dt).bodies =
      [integratePosition dt (integrateVelocity w.gravityX w.gravityY dt
        { b with collision_count := 0 })] := by
  unfold step_physics step_soft_body solveStartState
  rw [if_neg (not_le.mpr hdt)]
  dsimp only
  rw [hb]
  rw [if_neg (by simp)]
  dsimp only [List.map]
  rw [queryTreePairsModel_single]
  dsimp only [buildConstraints]
  rw [warmStartPhase_nil, Function.iterate_fixed (velocityIteration_nil _)]
  dsimp only [List.map]
  rw [Function.iterate_fixed (positionIteration_nil _)]

/-- C1 counterexample: one isolated dynamic circle at rest, dt = 1, gravity
−981: after one `step_physics` the velocity is (0 + (−981)·1)·0.999 =
−980.019 ≠ vy0 + g·dt = −981 (the 0.999 damping), and the position has
already moved within the same step (y = −980.019 ≠ 0): position does not
wait for the subsequent step. -/
theorem step_isolated_circle_gravity_cex :
    ((step_physics worldC1 1).bodies.getD 0 defaultBody).vy ≠
      (worldC1.bodies.getD 0 defaultBody).vy + worldC1.gravityY * 1 ∧
    ((step_physics worldC1 1).bodies.getD 0 defaultBody).y ≠
      (worldC1.bodies.getD 0 defaultBody).y := by
  constructor <;> with_unfolding_all decide

/-- C1 (amended): for an isolated dynamic circle (no other bodies, no
applied force/torque, awake and not crossing the sleep threshold) a single
`step_physics` call updates the velocity to `(v0 + g·dt)·0.999` (gravity
integration followed by the 0.999 damping) and, in the *same* step, advances
the position with the newly integrated velocity (semi-implicit Euler):
`y1 = y0 + vy1·dt`. -/
theorem step_isolated_circle_gravity (w : World) (b : NativeBody) (dt : ℚ)
    (hb : w.bodies = [b]) (hshape : b.shapeType = SHAPE_CIRCLE)
    (hdyn : b.type = DYNAMIC) (hfx : b.forceX = 0) (hfy : b.forceY = 0)
    (htq : b.torque = 0) (haw : b.isAwake = true) (hst : b.sleepTime + dt ≤ 1)
    (hdt : 0 < dt) :
    ((step_physics w dt).bodies.getD 0 defaultBody).vy =
      (b.vy + w.gravityY * dt) * (999 / 1000) ∧
    ((step_physics w dt).bodies.getD 0 defaultBody).vx =
      (b.vx + w.gravityX * dt) * (999 / 1000) ∧
    ((step_physics w dt).bodies.getD 0 defaultBody).y =
      b.y + ((step_physics w dt).bodies.getD 0 defaultBody).vy * dt ∧
    ((step_physics w dt).bodies.getD 0 defaultBody).x =
      b.x + ((step_physics w dt).bodies.getD 0 defaultBody).vx * dt := by
  have hiv : integrateVelocity w.gravityX w.gravityY dt { b with collision_count := 0 } =
      { b with
        collision_count := 0
        sleepTime := if b.vx * b.vx + b.vy * b.vy < 1 / 5 ∧ |b.angularVelocity| < 1 / 5 ∧
          b.forceX = 0 ∧ b.forceY = 0 ∧ b.torque = 0 then b.sleepTime + dt else 0
        isAwake := true
        vx := (b.vx + w.gravityX * dt) * (999 / 1000)
        vy := (b.vy + w.gravityY * dt) * (999 / 1000)
        angularVelocity := b.angularVelocity * (999 / 1000)
        forceX := 0
        forceY := 0
        torque := 0 } := by
    unfold integrateVelocity
    dsimp only
    split_ifs with h1 h2 h3 h4 <;>
      first
        | (simp [hdyn, DYNAMIC, STATIC] at h1; done)
        | linarith
        | (simp [hfx, hfy, htq, haw]; done)
        | (simp [hfx, hfy, htq, haw]; ring_nf; done)
        | (simp [hfx, hfy, htq, haw]; constructor <;> ring)
  rw [step_single w b dt hb hdt, hiv]
  unfold integratePosition
  rw [if_neg (by simp [hdyn, DYNAMIC, STATIC])]
  simp

/-- Witness for the amended C1: concrete isolated circle, dt = 1/60. -/
theorem step_isolated_circle_gravity_witness :
    ((step_physics worldC1 (1 / 60)).bodies.getD 0 defaultBody).vy =
      ((worldC1.bodies.getD 0 defaultBody).vy + worldC1.gravityY * (1 / 60)) * (999 / 1000) ∧
    ((step_physics worldC1 (1 / 60)).bodies.getD 0 defaultBody).vx =
      ((worldC1.bodies.getD 0 defaultBody).vx + worldC1.gravityX * (1 / 60)) * (999 / 1000) ∧
    ((step_physics worldC1 (1 / 60)).bodies.getD 0 defaultBody).y =
      (worldC1.bodies.getD 0 defaultBody).y +
        ((step_physics worldC1 (1 / 60)).bodies.getD 0 defaultBody).vy * (1 / 60) ∧
    ((step_physics worldC1 (1 / 60)).bodies.getD 0 defaultBody).x =
      (worldC1.bodies.getD 0 defaultBody).x +
        ((step_physics worldC1 (1 / 60)).bodies.getD 0 defaultBody).vx * (1 / 60) :=
  step_isolated_circle_gravity worldC1 (worldC1.bodies.getD 0 defaultBody) (1 / 60)
    (by with_unfolding_all decide) (by with_unfolding_all decide)
    (by with_unfolding_all decide) (by with_unfolding_all decide)
    (by with_unfolding_all decide) (by with_unfolding_all decide)
    (by with_unfolding_all decide) (by with_unfolding_all decide) (by norm_num)

theorem foldl_invariant {α β : Type _} (P : β → Prop) (f : β → α → β)
    (hf : ∀ st x, P st → P (f st x)) :
    ∀ (l : List α) (st : β), P st → P (l.foldl f st) := by
  intro l
  induction l with
  | nil => intro st h; exact h
  | cons a t ih => intro st h; exact ih _ (hf st a h)

theorem lookupCache_mem :
    ∀ (cache : List (Nat × CachedImpulse)) (k : Nat) (v : CachedImpulse),
      lookupCache cache k = some v → (k, v) ∈ cache := by
  intro cache
  induction cache with
  | nil => intro k v h; simp [lookupCache] at h
  | cons e rest ih =>
    intro k v h
    obtain ⟨k0, v0⟩ := e
    simp only [lookupCache] at h
    split_ifs at h with he
    · injection h with hv
      subst hv; subst he
      exact List.mem_cons_self _ _
    · exact List.mem_cons_of_mem _ (ih k v h)

/-- Every point emitted by the warm-start point loop carries a normal
impulse that is either a cached value or zero. -/
theorem warmPoints_nonneg (cache : List (Nat × CachedImpulse))
    (hcache : cacheNonneg cache) (cA cB : Nat) (nrm tng : Vec2) :
    ∀ (pts : List ContactConstraintPoint) (j : Nat) (bs : List NativeBody),
      ∀ p ∈ (warmPoints cache cA cB nrm tng j pts bs).2, 0 ≤ p.normalImpulse := by
  intro pts
  induction pts with
  | nil => intro j bs p hp; simp [warmPoints] at hp
  | cons cp rest ih =>
    intro j bs p hp
    simp only [warmPoints] at hp
    rcases hlk : lookupCache cache (warmKey cA cB j) with _ | imp <;> rw [hlk] at hp <;>
      dsimp only at hp
    · rcases List.mem_cons.mp hp with h | h
      · subst h; simp
      · exact ih _ _ p h
    · rcases List.mem_cons.mp hp with h | h
      · subst h
        exact hcache _ (lookupCache_mem cache _ imp hlk)
      · exact ih _ _ p h

/-- Constraint building only emits zero-initialised accumulated impulses. -/
theorem constraintsNonneg_buildConstraints (soft : Softness) (rt : ℚ) (mc : Nat) :
    ∀ (pairs : List (Nat × Nat)) (st : List NativeBody × List ContactConstraint),
      constraintsNonneg st.2 →
      constraintsNonneg (buildConstraints soft rt mc pairs st).2 := by
  intro pairs
  induction pairs with
  | nil => intro st h; exact h
  | cons pr rest ih =>
    intro st h
    obtain ⟨bs, cs⟩ := st
    obtain ⟨i, j⟩ := pr
    simp only [buildConstraints]
    split_ifs with h1 h2 h3 h4
    all_goals first
      | exact h
      | exact ih _ h
      | (apply ih
         intro c hc p hp
         rcases List.mem_append.mp hc with hmem | hmem
         · exact h c hmem p hp
         · have hceq : c = mkConstraint i j (getBody bs i) (getBody bs j)
               (pairManifold (getBody bs i) (getBody bs j)) soft rt := by
             simpa using hmem
           subst hceq
           simp only [mkConstraint] at hp
           rcases List.mem_map.mp hp with ⟨ct, hct, hpc⟩
           subst hpc
           simp [mkConstraintPoint])

/-- The warm-start phase keeps every accumulated normal impulse
non-negative when the cache holds only non-negative normal impulses. -/
theorem constraintsNonneg_warmStartPhase (e : Bool)
    (cache : List (Nat × CachedImpulse)) (hcache : cacheNonneg cache)
    (st : List NativeBody × List ContactConstraint) (h : constraintsNonneg st.2) :
    constraintsNonneg (warmStartPhase e cache st).2 := by
  unfold warmStartPhase
  split_ifs with he
  · refine foldl_invariant (fun st => constraintsNonneg st.2) _ ?_ _ st h
    intro st1 i hP
    dsimp only
    intro c hc p hp
    rcases mem_modifyAt c hc with hmem | ⟨y, hy, hcy⟩
    · exact hP c hmem p hp
    · subst hcy
      exact warmPoints_nonneg cache hcache _ _ _ _ _ _ _ p hp
  · exact h

theorem solvePoint_normalImpulse_nonneg (c : ContactConstraint)
    (bs : List NativeBody) (cp : ContactConstraintPoint) :
    0 ≤ ((solvePoint c bs cp).2).normalImpulse := by
  unfold solvePoint
  dsimp only
  exact le_max_right _ 0

theorem solvePoints_nonneg (c : ContactConstraint) :
    ∀ (pts : List ContactConstraintPoint) (bs : List NativeBody),
      ∀ p ∈ (solvePoints c pts bs).2, 0 ≤ p.normalImpulse := by
  intro pts
  induction pts with
  | nil => intro bs p hp; simp [solvePoints] at hp
  | cons cp rest ih =>
    intro bs p hp
    simp only [solvePoints] at hp
    rcases List.mem_cons.mp hp with h | h
    · subst h
      exact solvePoint_normalImpulse_nonneg c bs cp
    · exact ih _ p h

/-- One constraint of a velocity iteration clamps every accumulated normal
impulse at zero (`max(old + lambda, 0)`). -/
theorem constraintsNonneg_solveConstraint
    (st : List NativeBody × List ContactConstraint) (i : Nat)
    (h : constraintsNonneg st.2) : constraintsNonneg (solveConstraint st i).2 := by
  unfold solveConstraint
  dsimp only
  split_ifs with hskip
  · exact h
  · intro c hc p hp
    rcases mem_modifyAt c hc with hmem | ⟨y, hy, hcy⟩
    · exact h c hmem p hp
    · subst hcy
      exact solvePoints_nonneg _ _ _ p hp

theorem constraintsNonneg_velocityIteration
    (st : List NativeBody × List ContactConstraint) (h : constraintsNonneg st.2) :
    constraintsNonneg (velocityIteration st).2 :=
  foldl_invariant (fun st => constraintsNonneg st.2) solveConstraint
    (fun st i hP => constraintsNonneg_solveConstraint st i hP) _ st h

/-- C2: as long as the warm-start cache holds only non-negative normal
impulses (true initially — the cache starts empty — and preserved by the
store loop, which writes back these same clamped values), the accumulated
normal impulse of every contact point of every constraint is non-negative at
the end of every velocity iteration of `step_physics`: after the build and
warm-start phases and any number `k` of velocity-iteration passes. -/
theorem normalImpulse_nonneg_iterations (w : World) (dt : ℚ) (k : Nat)
    (hcache : cacheNonneg w.warmStartCache) :
    constraintsNonneg (velocityIteration^[k] (solveStartState w dt)).2 := by
  have hbase : constraintsNonneg (solveStartState w dt).2 := by
    unfold solveStartState
    dsimp only
    apply constraintsNonneg_warmStartPhase _ _ hcache
    apply constraintsNonneg_buildConstraints
    intro c hc
    simp at hc
  induction k with
  | zero => exact hbase
  | succ n ih =>
    rw [Function.iterate_succ_apply']
    exact constraintsNonneg_velocityIteration _ ih

/-- Witness for C2: the two-circle world with empty cache after one velocity
iteration; the state really contains a (one-point) constraint, so the
statement is not vacuous. -/
theorem normalImpulse_nonneg_iterations_witness :
    cacheNonneg worldC2.warmStartCache ∧
    (velocityIteration^[1] (solveStartState worldC2 (1 / 60))).2.length = 1 ∧
    constraintsNonneg (velocityIteration^[1] (solveStartState worldC2 (1 / 60))).2 :=
  ⟨by with_unfolding_all decide, by with_unfolding_all decide,
   normalImpulse_nonneg_iterations worldC2 (1 / 60) 1 (by with_unfolding_all decide)⟩

theorem pairKey_comm (a b : Nat) : pairKey a b = pairKey b a := by
  unfold pairKey
  rw [min_comm, max_comm]

theorem mem_cellPairKeys_intro :
    ∀ (l : List Nat) (a b : Nat), a ∈ l → b ∈ l → a ≠ b →
      pairKey a b ∈ cellPairKeys l := by
  intro l
  induction l with
  | nil => intro a b ha _ _; simp at ha
  | cons x xs ih =>
    intro a b ha hb hab
    simp only [cellPairKeys, List.mem_append]
    rcases List.mem_cons.mp ha with rfl | ha2
    · rcases List.mem_cons.mp hb with rfl | hb2
      · exact absurd rfl hab
      · exact Or.inl (List.mem_map_of_mem _ hb2)
    · rcases List.mem_cons.mp hb with rfl | hb2
      · refine Or.inl ?_
        rw [pairKey_comm]
        exact List.mem_map_of_mem _ ha2
      · exact Or.inr (ih a b ha2 hb2 hab)

theorem mem_cellPairKeys_elim :
    ∀ (l : List Nat), l.Nodup → ∀ k ∈ cellPairKeys l,
      ∃ a b, a ≠ b ∧ a ∈ l ∧ b ∈ l ∧ k = pairKey a b := by
  intro l
  induction l with
  | nil => intro _ k hk; simp [cellPairKeys] at hk
  | cons x xs ih =>
    intro hnd k hk
    have hx : x ∉ xs := (List.nodup_cons.mp hnd).1
    have hxs : xs.Nodup := (List.nodup_cons.mp hnd).2
    simp only [cellPairKeys, List.mem_append] at hk
    rcases hk with hk | hk
    · rcases List.mem_map.mp hk with ⟨y, hy, rfl⟩
      exact ⟨x, y, fun he => hx (he ▸ hy), List.mem_cons_self x xs,
        List.mem_cons_of_mem x hy, rfl⟩
    · rcases ih hxs k hk with ⟨a, b, hab, ha, hb, hkey⟩
      exact ⟨a, b, hab, List.mem_cons_of_mem x ha, List.mem_cons_of_mem x hb, hkey⟩

theorem mem_dedupAdj : ∀ (l : List Nat) (x : Nat), x ∈ dedupAdj l ↔ x ∈ l := by
  intro l
  induction l with
  | nil => intro x; rfl
  | cons a t ih =>
    intro x
    cases t with
    | nil => rfl
    | cons b u =>
      simp only [dedupAdj]
      split_ifs with hab
      · rw [ih x]
        subst hab
        simp [List.mem_cons]
      · simp only [List.mem_cons] at *
        rw [ih x]

theorem sorted_lt_dedupAdj :
    ∀ (l : List Nat), List.Sorted (· ≤ ·) l → List.Sorted (· < ·) (dedupAdj l) := by
  intro l
  induction l with
  | nil => intro _; exact List.sorted_nil
  | cons a t ih =>
    intro hs
    cases t with
    | nil => simp [dedupAdj]
    | cons b u =>
      have hab : a ≤ b := (List.sorted_cons.mp hs).1 b (List.mem_cons_self b u)
      have hrest : List.Sorted (· ≤ ·) (b :: u) := (List.sorted_cons.mp hs).2
      simp only [dedupAdj]
      split_ifs with he
      · exact ih hrest
      · rw [List.sorted_cons]
        refine ⟨?_, ih hrest⟩
        intro c hc
        have hc2 : c ∈ b :: u := (mem_dedupAdj _ c).mp hc
        rcases List.mem_cons.mp hc2 with rfl | hc3
        · exact lt_of_le_of_ne hab he
        · exact lt_of_lt_of_le (lt_of_le_of_ne hab he)
            ((List.sorted_cons.mp hrest).1 c hc3)

theorem decode_pairKey (x y : Nat) (hx : x < 2 ^ 32) (hy : y < 2 ^ 32) :
    pairKey x y / 2 ^ 32 = min x y ∧ pairKey x y % 2 ^ 32 = max x y := by
  unfold pairKey
  have hmax : max x y < 2 ^ 32 := max_lt hx hy
  have h32 : (2 : Nat) ^ 32 = 4294967296 := by norm_num
  rw [h32] at *
  omega

theorem decode_inj (k1 k2 : Nat) (h1 : k1 / 2 ^ 32 = k2 / 2 ^ 32)
    (h2 : k1 % 2 ^ 32 = k2 % 2 ^ 32) : k1 = k2 := by
  have h32 : (2 : Nat) ^ 32 = 4294967296 := by norm_num
  rw [h32] at *
  omega

theorem mem_mapIdxFrom {f : Nat → α → α} :
    ∀ (l : List α) (n : Nat) (c : α), c ∈ mapIdxFrom f n l →
      ∃ i c0, c0 ∈ l ∧ c = f i c0 := by
  intro l
  induction l with
  | nil => intro n c hc; simp [mapIdxFrom] at hc
  | cons a t ih =>
    intro n c hc
    rcases List.mem_cons.mp hc with rfl | hc2
    · exact ⟨n, a, List.mem_cons_self a t, rfl⟩
    · rcases ih (n + 1) c hc2 with ⟨i, c0, hc0, hfc⟩
      exact ⟨i, c0, List.mem_cons_of_mem a hc0, hfc⟩

/-- Every id stored in any cell after inserting a batch of bodies satisfies
any property `Q` holding of the inserted ids (and of whatever was already in
the grid). -/
theorem buildGrid_cells_Q (Q : Nat → Prop) :
    ∀ (bodies : List (Nat × AABB)) (g : SpatialHashGrid),
      (∀ cell ∈ g.cells, ∀ x ∈ cell, Q x) → (∀ p ∈ bodies, Q p.1) →
      ∀ cell ∈ (buildGrid g bodies).cells, ∀ x ∈ cell, Q x := by
  intro bodies
  induction bodies with
  | nil => intro g hg _; exact hg
  | cons p rest ih =>
    intro g hg hb
    have hstep : ∀ cell ∈ (insert_into_grid g p.1 p.2).cells, ∀ x ∈ cell, Q x := by
      intro cell hcell x hx
      unfold insert_into_grid at hcell
      dsimp only at hcell
      rcases mem_mapIdxFrom _ _ _ hcell with ⟨i, c0, hc0, rfl⟩
      split_ifs at hx with hin
      · rcases List.mem_append.mp hx with h | h
        · exact hg c0 hc0 x h
        · have hxp : x = p.1 := by simpa using h
          exact hxp ▸ hb p (List.mem_cons_self p rest)
      · exact hg c0 hc0 x hx
    have := ih (insert_into_grid g p.1 p.2) hstep
      (fun q hq => hb q (List.mem_cons_of_mem p hq))
    exact this

/-- One insertion adds a given id at most once to any cell. -/
theorem count_insert_cell (g : SpatialHashGrid) (bid : Nat) (aabb : AABB)
    (x : Nat) :
    ∀ cell ∈ (insert_into_grid g bid aabb).cells, ∃ cell0 ∈ g.cells,
      cell.count x ≤ cell0.count x + (if x = bid then 1 else 0) := by
  intro cell hcell
  unfold insert_into_grid at hcell
  dsimp only at hcell
  rcases mem_mapIdxFrom _ _ _ hcell with ⟨i, c0, hc0, rfl⟩
  refine ⟨c0, hc0, ?_⟩
  split_ifs with hin hx
  · subst hx
    simp [List.count_append]
  · simp only [List.count_append]
    have : List.count x [bid] = 0 := by
      simp [List.count_singleton]
      omega
    omega
  · simp
  · simp

/-- After building from a batch, a cell holds an id at most as often as the
batch does (plus whatever the initial grid held). -/
theorem buildGrid_count (x : Nat) :
    ∀ (bodies : List (Nat × AABB)) (g : SpatialHashGrid) (n : Nat),
      (∀ cell ∈ g.cells, cell.count x ≤ n) →
      ∀ cell ∈ (buildGrid g bodies).cells,
        cell.count x ≤ n + (bodies.map Prod.fst).count x := by
  intro bodies
  induction bodies with
  | nil =>
    intro g n hg cell hcell
    simpa using hg cell hcell
  | cons p rest ih =>
    intro g n hg cell hcell
    have hstep : ∀ cell ∈ (insert_into_grid g p.1 p.2).cells,
        cell.count x ≤ n + (if x = p.1 then 1 else 0) := by
      intro c hc
      rcases count_insert_cell g p.1 p.2 x c hc with ⟨c0, hc0, hle⟩
      have := hg c0 hc0
      omega
    have hmain := ih (insert_into_grid g p.1 p.2) (n + (if x = p.1 then 1 else 0))
      hstep cell hcell
    rcases eq_or_ne x p.1 with hxp | hxp
    · subst hxp
      simp [List.map_cons, List.count_cons] at *
      omega
    · simp [List.map_cons, List.count_cons, hxp, Ne.symm hxp] at *
      omega

/-- Building from ids with no duplicates over an empty grid yields
duplicate-free cells. -/
theorem buildGrid_cell_nodup (bodies : List (Nat × AABB)) (g : SpatialHashGrid)
    (hg : ∀ cell ∈ g.cells, cell = [])
    (hnodup : (bodies.map Prod.fst).Nodup) :
    ∀ cell ∈ (buildGrid g bodies).cells, cell.Nodup := by
  intro cell hcell
  rw [List.nodup_iff_count_le_one]
  intro x
  have h0 : ∀ c ∈ g.cells, c.count x ≤ 0 := by
    intro c hc
    rw [hg c hc]
    simp
  have h1 := buildGrid_count x bodies g 0 h0 cell hcell
  have h2 := List.nodup_iff_count_le_one.mp hnodup x
  omega

theorem count_one_of_mem_nodup {α : Type _} [BEq α] [LawfulBEq α] :
    ∀ (l : List α) (a : α), l.Nodup → a ∈ l → l.count a = 1 := by
  intro l
  induction l with
  | nil => intro a _ ha; simp at ha
  | cons x t ih =>
    intro a hn ha
    have hx : x ∉ t := (List.nodup_cons.mp hn).1
    have ht : t.Nodup := (List.nodup_cons.mp hn).2
    rw [List.count_cons]
    rcases List.mem_cons.mp ha with rfl | hat
    · have h0 : t.count a = 0 := List.count_eq_zero.mpr hx
      simp [h0]
    · have hne : a ≠ x := fun he => hx (he ▸ hat)
      rw [ih a ht hat]
      simp [hne, Ne.symm hne]

/-- C7: for any batch of inserted bodies with pairwise-distinct ids (all
below 2^32, as `uint32_t` guarantees), every unordered pair of bodies that
shares at least one grid cell appears exactly once in the output of
`query_grid_pairs`, in canonical (low id, high id) order; the output has no
duplicates and no self-pairs, provided the deduplicated pair list does not
exceed the `maxPairs` capacity. -/
theorem grid_pairs_unique_canonical (g0 : SpatialHashGrid)
    (bodies : List (Nat × AABB)) (aId bId : Nat) (maxPairs : Nat)
    (hnodup : (bodies.map Prod.fst).Nodup)
    (hlt : ∀ i ∈ bodies.map Prod.fst, i < 2 ^ 32)
    (hempty : ∀ cell ∈ g0.cells, cell = [])
    (hab : aId ≠ bId)
    (hshare : ∃ cell ∈ (buildGrid g0 bodies).cells, aId ∈ cell ∧ bId ∈ cell)
    (hcap : (dedupAdj (List.insertionSort (· ≤ ·)
      (((buildGrid g0 bodies).cells.map cellPairKeys).flatten))).length ≤ maxPairs) :
    (query_grid_pairs (buildGrid g0 bodies) maxPairs).count
      (min aId bId, max aId bId) = 1 ∧
    (∀ pr ∈ query_grid_pairs (buildGrid g0 bodies) maxPairs, pr.1 < pr.2) ∧
    (query_grid_pairs (buildGrid g0 bodies) maxPairs).Nodup := by
  have hsorted : List.Sorted (· ≤ ·) (List.insertionSort (· ≤ ·)
      (((buildGrid g0 bodies).cells.map cellPairKeys).flatten)) :=
    List.sorted_insertionSort _ _
  have huniq_nodup : (dedupAdj (List.insertionSort (· ≤ ·)
      (((buildGrid g0 bodies).cells.map cellPairKeys).flatten))).Nodup :=
    (sorted_lt_dedupAdj _ hsorted).nodup
  have hmem_uniq : ∀ k, k ∈ dedupAdj (List.insertionSort (· ≤ ·)
      (((buildGrid g0 bodies).cells.map cellPairKeys).flatten)) ↔
      k ∈ ((buildGrid g0 bodies).cells.map cellPairKeys).flatten := by
    intro k
    rw [mem_dedupAdj]
    exact (List.perm_insertionSort _ _).mem_iff
  have hcellQ : ∀ cell ∈ (buildGrid g0 bodies).cells, ∀ x ∈ cell,
      x ∈ bodies.map Prod.fst :=
    buildGrid_cells_Q (fun x => x ∈ bodies.map Prod.fst) bodies g0
      (fun cell hc x hx => absurd hx (by rw [hempty cell hc]; simp))
      (fun p hp => List.mem_map_of_mem Prod.fst hp)
  have hcellN : ∀ cell ∈ (buildGrid g0 bodies).cells, cell.Nodup :=
    buildGrid_cell_nodup bodies g0 hempty hnodup
  have hkey_elim : ∀ k ∈ ((buildGrid g0 bodies).cells.map cellPairKeys).flatten,
      ∃ a b, a ≠ b ∧ a < 2 ^ 32 ∧ b < 2 ^ 32 ∧ k = pairKey a b := by
    intro k hk
    rcases List.mem_flatten.mp hk with ⟨cks, hcks, hkin⟩
    rcases List.mem_map.mp hcks with ⟨cell, hcell, rfl⟩
    rcases mem_cellPairKeys_elim cell (hcellN cell hcell) k hkin with
      ⟨a, b, hne, ha, hb, hkey⟩
    exact ⟨a, b, hne, hlt a (hcellQ cell hcell a ha), hlt b (hcellQ cell hcell b hb), hkey⟩
  have hquery : query_grid_pairs (buildGrid g0 bodies) maxPairs =
      (dedupAdj (List.insertionSort (· ≤ ·)
        (((buildGrid g0 bodies).cells.map cellPairKeys).flatten))).map
        (fun k => (k / 2 ^ 32, k % 2 ^ 32)) := by
    unfold query_grid_pairs
    dsimp only
    rw [List.take_of_length_le hcap]
  have hkuniq : pairKey aId bId ∈ dedupAdj (List.insertionSort (· ≤ ·)
      (((buildGrid g0 bodies).cells.map cellPairKeys).flatten)) := by
    rw [hmem_uniq]
    rcases hshare with ⟨cell, hcell, ha, hb⟩
    exact List.mem_flatten.mpr ⟨cellPairKeys cell,
      List.mem_map_of_mem cellPairKeys hcell,
      mem_cellPairKeys_intro cell aId bId ha hb hab⟩
  have hout_nodup : (query_grid_pairs (buildGrid g0 bodies) maxPairs).Nodup := by
    rw [hquery]
    refine huniq_nodup.map_on ?_
    intro x _ y _ hxy
    have h1 : x / 2 ^ 32 = y / 2 ^ 32 := congrArg Prod.fst hxy
    have h2 : x % 2 ^ 32 = y % 2 ^ 32 := congrArg Prod.snd hxy
    exact decode_inj x y h1 h2
  have halt : aId < 2 ^ 32 := by
    rcases hshare with ⟨cell, hcell, ha, _⟩
    exact hlt aId (hcellQ cell hcell aId ha)
  have hblt : bId < 2 ^ 32 := by
    rcases hshare with ⟨cell, hcell, _, hb⟩
    exact hlt bId (hcellQ cell hcell bId hb)
  have hdec := decode_pairKey aId bId halt hblt
  have hmem_out : (min aId bId, max aId bId) ∈
      query_grid_pairs (buildGrid g0 bodies) maxPairs := by
    rw [hquery]
    refine List.mem_map.mpr ⟨pairKey aId bId, hkuniq, ?_⟩
    rw [hdec.1, hdec.2]
  refine ⟨count_one_of_mem_nodup _ _ hout_nodup hmem_out, ?_, hout_nodup⟩
  intro pr hpr
  rw [hquery] at hpr
  rcases List.mem_map.mp hpr with ⟨k, hk, rfl⟩
  rcases hkey_elim k ((hmem_uniq k).mp hk) with ⟨a, b, hne, halt2, hblt2, rfl⟩
  have hd := decode_pairKey a b halt2 hblt2
  rw [hd.1, hd.2]
  dsimp only
  omega

/-- Witness for C7: a 1×1-cell grid with two overlapping bodies 0 and 1 —
the output is exactly [(0, 1)]. -/
theorem grid_pairs_unique_canonical_witness :
    (query_grid_pairs gridC7 100).count (min 0 1, max 0 1) = 1 ∧
    (∀ pr ∈ query_grid_pairs gridC7 100, pr.1 < pr.2) ∧
    (query_grid_pairs gridC7 100).Nodup :=
  grid_pairs_unique_canonical (create_spatial_grid 0 0 10 10 10)
    [(0, ⟨1, 1, 3, 3⟩), (1, ⟨2, 2, 4, 4⟩)] 0 1 100
    (by with_unfolding_all decide) (by with_unfolding_all decide)
    (by with_unfolding_all decide) (by with_unfolding_all decide)
    (by with_unfolding_all decide) (by with_unfolding_all decide)

end FlashEngine
